import Mathlib

/-!
Verification of the lesson-completion and XP-crediting ledger of the
phase1-release backend.

The definitions below are a shallow embedding of
`src/backend/app/api/v1/modules.py` (`_complete_lesson_internal`,
`complete_lesson`, `complete_lesson_by_number`) over the data model of
`src/backend/app/models/{content,progress,user}.py`.  The spec (section 9)
designates the flush-and-catch variant in `modules.py` as the reference
behavior for the completion ledger, and that variant is what is embedded here.

Modelling conventions:
- Machine integers of the database are modelled as `Nat` (ids, counters,
  timestamps) and `Int` (XP amounts, which the schema allows to be negative).
- Nullable columns are `Option`.
- Floating-point columns (`progress_percentage`, `score` as Float) are not
  part of any claim; `score` is carried as `Option Int` and the percentage
  fields are omitted.
- The database session is explicit state passing on a `DB` value; a raised
  exception is `Except.error`, and the route-level handler restores the
  pre-call state (`db.session.rollback()`).
- Wall-clock time (`datetime.utcnow()`) and the outcome of the final
  `db.session.commit()` are inputs supplied by an `Env` record: the commit
  either succeeds or raises an `IntegrityError` carrying a message string,
  which is how the storage layer reports constraint violations.
- Post-commit hooks: in this tree `app.api.v1.gamification` does not exist,
  so `update_leaderboard` and `check_achievements` are the no-op fallbacks
  defined at `modules.py` lines 21-24; the retry loop around them is embedded
  generically with an environment-chosen failure pattern.
-/

namespace Phase1

/-- Lesson catalog row (`models/content.py`, class `Lesson`).  `xp_reward` is a
nullable integer column (default 10); `none` models a NULL / non-numeric value,
for which `isinstance(..., (int, float))` in the crediting code is false. -/
structure Lesson where
  id : Nat
  module_id : Nat
  lesson_number : Nat
  title : String
  xp_reward : Option Int
deriving Repr, DecidableEq

/-- Module catalog row (`models/content.py`, class `Module`).  `total_lessons`
is the denormalized lesson count (default 0). -/
structure Module where
  id : Nat
  module_number : Nat
  total_lessons : Nat
deriving Repr, DecidableEq

/-- Per-(user, lesson) progress row (`models/progress.py`,
class `UserLessonProgress`); unique constraint `unique_user_lesson` on
`(user_id, lesson_id)`. -/
structure UserLessonProgress where
  user_id : Nat
  lesson_id : Nat
  status : String
  is_completed : Bool
  score : Option Int
  time_spent : Int
  xp_earned : Int
  completed_at : Option Nat
deriving Repr, DecidableEq

/-- Per-(user, module) aggregate row (`models/progress.py`,
class `UserModuleProgress`); unique constraint `unique_user_module`.
`completed_lessons` is a nullable integer column, and the completion code
guards against `None` explicitly. -/
structure UserModuleProgress where
  user_id : Nat
  module_id : Nat
  completed_lessons : Option Nat
  total_lessons : Nat
  is_completed : Bool
  completed_at : Option Nat
  last_accessed : Option Nat
deriving Repr, DecidableEq

/-- Append-only XP ledger row (`models/progress.py`, class `XPTransaction`).
The `extra_metadata` JSON written by the completion code always holds the
module id and the lesson id, carried here as two fields. -/
structure XPTransaction where
  user_id : Nat
  source : String
  amount : Int
  description : String
  meta_module_id : Nat
  meta_lesson_id : Nat
deriving Repr, DecidableEq

/-- User row, restricted to the fields the ledger touches
(`models/user.py`, class `User`). -/
structure User where
  id : Nat
  total_xp : Int
deriving Repr, DecidableEq

/-- The relational store: catalog tables (read-only for this logic) and the
three mutable tables plus the users table. -/
structure DB where
  lessons : List Lesson
  modules : List Module
  lessonProgress : List UserLessonProgress
  moduleProgress : List UserModuleProgress
  xpTransactions : List XPTransaction
  users : List User
deriving Repr, DecidableEq

/-- The request body `data` of a completion call; each field models the
presence of the corresponding key with a numeric value. -/
structure CompletionData where
  score : Option Int
  time_spent : Option Int
  xp_earned : Option Int
deriving Repr, DecidableEq

/-- Environment inputs of one call: the current time, the outcome of the
final commit (`none` = success, `some msg` = `IntegrityError` with message
`msg`), and which post-commit hook attempts raise. -/
structure Env where
  now : Nat
  commitError : Option String
  hookFails : Nat → Bool

/-- Exceptions that escape `_complete_lesson_internal`. -/
inductive Err where
  | notFound (msg : String)
  | integrityError (msg : String)
deriving Repr, DecidableEq

/-- The tuple returned by `_complete_lesson_internal` (modules.py line 603):
`(lesson_progress, module_progress, xp_earned, already_completed)`. -/
structure CompletionResult where
  lesson_progress : UserLessonProgress
  module_progress : Option UserModuleProgress
  xp_credited : Int
  already_completed : Bool
deriving Repr, DecidableEq

/-- JSON response envelope of the two routes (`APIResponse.success` /
`APIResponse.error`), restricted to the payload the routes build. -/
inductive ApiResponse where
  | success (lesson_progress : UserLessonProgress)
      (module_progress : Option UserModuleProgress)
      (xp_earned : Int) (already_completed : Bool) (message : String)
  | error (message : String) (status_code : Nat) (error_code : String)
deriving Repr, DecidableEq

/-! ## Query and update helpers (the ORM calls used by the completion code) -/

/-- Python `x or 0` on a nullable integer. -/
def orZero : Option Nat → Nat
  | none => 0
  | some n => n

/-- `Lesson.query.get(lesson_id)`. -/
def lessonOf (db : DB) (lid : Nat) : Option Lesson :=
  db.lessons.find? (fun l => l.id == lid)

/-- `Module.query.get(module_id)`. -/
def moduleOf (db : DB) (mid : Nat) : Option Module :=
  db.modules.find? (fun m => m.id == mid)

/-- `UserLessonProgress.query.filter_by(user_id=.., lesson_id=..).first()`. -/
def findLP (db : DB) (u lid : Nat) : Option UserLessonProgress :=
  db.lessonProgress.find? (fun r => r.user_id == u && r.lesson_id == lid)

/-- `UserModuleProgress.query.filter_by(user_id=.., module_id=..).first()`. -/
def findMP (db : DB) (u mid : Nat) : Option UserModuleProgress :=
  db.moduleProgress.find? (fun r => r.user_id == u && r.module_id == mid)

/-- `db.session.add` of a fresh lesson-progress row. -/
def addLP (db : DB) (r : UserLessonProgress) : DB :=
  { db with lessonProgress := db.lessonProgress ++ [r] }

/-- Write-back of the mutated lesson-progress ORM object keyed by
`(user_id, lesson_id)`. -/
def updateLP (db : DB) (u lid : Nat) (r : UserLessonProgress) : DB :=
  { db with lessonProgress :=
      db.lessonProgress.map fun x =>
        if x.user_id == u && x.lesson_id == lid then r else x }

/-- `db.session.add` of a fresh module-progress row. -/
def addMP (db : DB) (r : UserModuleProgress) : DB :=
  { db with moduleProgress := db.moduleProgress ++ [r] }

/-- Write-back of the mutated module-progress ORM object keyed by
`(user_id, module_id)`. -/
def updateMP (db : DB) (u mid : Nat) (r : UserModuleProgress) : DB :=
  { db with moduleProgress :=
      db.moduleProgress.map fun x =>
        if x.user_id == u && x.module_id == mid then r else x }

/-- The atomic `update(User).values(total_xp=User.total_xp + amount)` of
modules.py lines 760-764: a no-op when no such user row exists. -/
def incUserXp (db : DB) (u : Nat) (amount : Int) : DB :=
  { db with users :=
      db.users.map fun x =>
        if x.id == u then { x with total_xp := x.total_xp + amount } else x }

/-- Observed total XP of a user. -/
def userTotalXp (db : DB) (u : Nat) : Option Int :=
  (db.users.find? (fun x => x.id == u)).map (fun x => x.total_xp)

/-- Number of XP-ledger rows recorded for a given `(user, lesson)` pair. -/
def txCount (db : DB) (u lid : Nat) : Nat :=
  (db.xpTransactions.filter fun t => t.user_id == u && t.meta_lesson_id == lid).length

/-- The reconciliation query of modules.py lines 716-720: the number of
completed lesson-progress rows of user `u` whose lesson belongs to module
`mid`, computed against a given catalog and row list. -/
def completedCountAux (lessons : List Lesson) (rows : List UserLessonProgress)
    (u mid : Nat) : Nat :=
  (rows.filter fun r =>
    r.user_id == u && r.is_completed &&
      (match lessons.find? (fun l => l.id == r.lesson_id) with
       | some l => l.module_id == mid
       | none => false)).length

/-- Full-scan count of completed lessons of user `u` in module `mid`. -/
def moduleCompletedCount (db : DB) (u mid : Nat) : Nat :=
  completedCountAux db.lessons db.lessonProgress u mid

/-- Whether the `(u, lid)` pair currently has a completed progress row. -/
def completedIn (db : DB) (u lid : Nat) : Bool :=
  match findLP db u lid with
  | some r => r.is_completed
  | none => false

/-! ## The XP amount resolution policy (modules.py lines 736-745) -/

/-- The branch taken when the request carries no positive numeric `xp_earned`
(modules.py lines 741-745): `int(lesson.xp_reward or 0)` whenever `xp_reward`
is a number -- including 0 and negative values -- and the fixed default 50 only
when `xp_reward` is not a number, since the `elif credited_xp == 0` arm of the
chain is reachable only in that case. -/
def resolveLessonXp : Option Int → Int
  | some y => y
  | none => 50

/-- Resolution of the credited amount on a first completion (modules.py lines
738-745; the identical chain is at lessons.py lines 125-131). -/
def resolveCreditedXp (reqXp lessonXp : Option Int) : Int :=
  match reqXp with
  | some x => if 0 < x then x else resolveLessonXp lessonXp
  | none => resolveLessonXp lessonXp

/-! ## Row constructors and field updates -/

/-- `UserLessonProgress(user_id=.., lesson_id=..)` with the column defaults of
`models/progress.py`. -/
def newLessonProgress (u lid : Nat) : UserLessonProgress :=
  { user_id := u, lesson_id := lid, status := "not_started",
    is_completed := false, score := none, time_spent := 0, xp_earned := 0,
    completed_at := none }

/-- Lines 669-681: mark the row completed and copy the submitted fields that
are present. -/
def markCompleted (r : UserLessonProgress) (d : CompletionData) (now : Nat) :
    UserLessonProgress :=
  { r with
    is_completed := true
    status := "completed"
    completed_at := some now
    score := (match d.score with | some s => some s | none => r.score)
    time_spent := (match d.time_spent with | some t => t | none => r.time_spent)
    xp_earned := (match d.xp_earned with | some x => x | none => r.xp_earned) }

/-- Lines 691-699: the module-progress row created lazily on first touch. -/
def newModuleProgress (u mid total now : Nat) : UserModuleProgress :=
  { user_id := u, module_id := mid, completed_lessons := some 0,
    total_lessons := total, is_completed := false, completed_at := none,
    last_accessed := some now }

/-- Lines 714-731: write the new count, refresh the denormalized total, stamp
the access time, and mark the module complete (timestamp set only if unset)
once the count reaches the total. -/
def updatedModuleProgress (mp : UserModuleProgress) (count total now : Nat) :
    UserModuleProgress :=
  { mp with
    completed_lessons := some count
    total_lessons := total
    last_accessed := some now
    is_completed := if total ≤ count then true else mp.is_completed
    completed_at :=
      if total ≤ count then
        (match mp.completed_at with
         | none => some now
         | some t => some t)
      else mp.completed_at }

/-- Lines 748-755: the ledger row appended on a credited completion. -/
def newXPTransaction (u mid lid : Nat) (lesson : Lesson) (amount : Int) :
    XPTransaction :=
  { user_id := u, source := "lesson_completion", amount := amount,
    description := "Lesson completed: " ++ lesson.title,
    meta_module_id := mid, meta_lesson_id := lid }

/-! ## String matching used to classify the commit IntegrityError -/

/-- Character-list version of string prefix testing. -/
def charsBeginWith : List Char → List Char → Bool
  | [], _ => true
  | _ :: _, [] => false
  | a :: as, b :: bs => a == b && charsBeginWith as bs

/-- Substring occurrence test, Python `needle in hay`. -/
def charsWithin (needle : List Char) : List Char → Bool
  | [] => needle.isEmpty
  | c :: rest => charsBeginWith needle (c :: rest) || charsWithin needle rest

/-- Python `needle in hay` on strings. -/
def strWithin (hay needle : String) : Bool :=
  charsWithin needle.toList hay.toList

/-- Python `str.lower()`, character-wise (the constraint messages involved
are ASCII). -/
def lowerStr (s : String) : String :=
  ⟨s.data.map Char.toLower⟩

/-- Lines 776-784: `error_str = str(e).lower()` and the three-way pattern test
deciding whether the IntegrityError is a unique-key violation. -/
def isUniqueViolationMsg (msg : String) : Bool :=
  strWithin (lowerStr msg) "unique" || strWithin (lowerStr msg) "duplicate" ||
    strWithin msg "UNIQUE constraint"

/-! ## Post-commit hook retry loop (modules.py lines 814-833) -/

/-- One pass over the remaining attempt indices of `for attempt in range(3)`.
`fails a` says attempt `a` raises inside the try block; on a failed attempt
that is not the last one the loop sleeps `100 * 2 ^ a` milliseconds.  Returns
the hook state, the number of attempts made, and the sleeps performed. -/
def runHookAttempts {H : Type} (fails : Nat → Bool) (hook : H → H) (h : H) :
    List Nat → Nat → List Nat → H × Nat × List Nat
  | [], made, sleeps => (h, made, sleeps)
  | a :: rest, made, sleeps =>
    if fails a then
      runHookAttempts fails hook h rest (made + 1)
        (if rest.isEmpty then sleeps else sleeps ++ [100 * 2 ^ a])
    else (hook h, made + 1, sleeps)

/-- The bounded-retry loop around `update_leaderboard(user_id)` and
`check_achievements(user_id)`: `max_retries = 3`, `retry_delay = 0.1` seconds,
exponential backoff `retry_delay * (2 ** attempt)`.  Hook exceptions are
logged and never propagated. -/
def runPostCommitHooks {H : Type} (fails : Nat → Bool) (hook : H → H) (h : H) :
    H × Nat × List Nat :=
  runHookAttempts fails hook h [0, 1, 2] 0 []

/-! ## The completion transaction (modules.py lines 600-834) -/

/-- Lines 683-731: fetch or lazily create the `(u, mid)` aggregate row, then
update it.  `already` is the `already_completed` flag; at both reachable call
sites it is `false`, because every already-completed path has returned by line
665, so the reconciliation rescan below is carried over as written but is dead
code. -/
def updateModuleProgressStage (env : Env) (db : DB) (u mid : Nat)
    (already : Bool) : Except Err (DB × UserModuleProgress) :=
  let fetched : Except Err (DB × UserModuleProgress) :=
    match findMP db u mid with
    | some mp => .ok (db, mp)
    | none =>
      match moduleOf db mid with
      | none => .error (.notFound "Module not found")
      | some m =>
        let mp := newModuleProgress u mid m.total_lessons env.now
        .ok (addMP db mp, mp)
  match fetched with
  | .error e => .error e
  | .ok (db, mp0) =>
    match moduleOf db mid with
    | none => .error (.notFound "Module not found")
    | some m =>
      let count :=
        if !already then orZero mp0.completed_lessons + 1
        else moduleCompletedCount db u mid
      let mp1 := updatedModuleProgress mp0 count m.total_lessons env.now
      .ok (updateMP db u mid mp1, mp1)

/-- Lines 733-766: resolve and credit XP on a new completion.  Returns the
state, the final lesson-progress row, and `credited_xp`. -/
def creditXpStage (db : DB) (u mid lid : Nat) (lesson : Lesson)
    (row1 : UserLessonProgress) (d : CompletionData) (already : Bool) :
    DB × UserLessonProgress × Int :=
  if already then (db, row1, 0)
  else
    let credited := resolveCreditedXp d.xp_earned lesson.xp_reward
    if 0 < credited then
      let tx := newXPTransaction u mid lid lesson credited
      let db1 := { db with xpTransactions := db.xpTransactions ++ [tx] }
      let db2 := incUserXp db1 u credited
      let row2 := { row1 with xp_earned := credited }
      (updateLP db2 u lid row2, row2, credited)
    else (db, row1, credited)

/-- Lines 768-834: the final commit with its IntegrityError handler, followed
by the post-commit hook loop.  `db0` is the state committed before this
request, which `db.session.rollback()` restores; on a unique-key violation the
handler re-reads the `(u, lid)` row from that state and resolves, otherwise
the error is re-raised unmodified. -/
def commitStage (env : Env) (db0 db : DB) (u lid : Nat)
    (result : CompletionResult) : Except Err (DB × CompletionResult) :=
  match env.commitError with
  | none =>
    let db2 := (runPostCommitHooks env.hookFails id db).1
    .ok (db2, result)
  | some msg =>
    if isUniqueViolationMsg msg then
      match findLP db0 u lid with
      | some p =>
        if p.is_completed then .ok (db0, ⟨p, none, 0, true⟩)
        else .ok (db0, ⟨p, none, 0, false⟩)
      | none => .error (.integrityError msg)
    else .error (.integrityError msg)

/-- Lines 669-834 for a row that is being newly completed: update the row,
update the module aggregate, credit XP, commit, and run the hooks.  `db0` is
the pre-transaction state, `db` the current draft, `already` is `false` at
both call sites (see `updateModuleProgressStage`). -/
def runBody (env : Env) (db0 db : DB) (lesson : Lesson)
    (row : UserLessonProgress) (u mid lid : Nat) (d : CompletionData) :
    Except Err (DB × CompletionResult) :=
  let row1 := markCompleted row d env.now
  let db1 := updateLP db u lid row1
  match updateModuleProgressStage env db1 u mid false with
  | .error e => .error e
  | .ok (db2, mp1) =>
    let s := creditXpStage db2 u mid lid lesson row1 d false
    commitStage env db0 s.1 u lid ⟨s.2.1, some mp1, s.2.2, false⟩

/-- `_complete_lesson_internal` (modules.py lines 600-834).  The early flush
of a freshly inserted row (line 632) probes the `unique_user_lesson`
constraint; in this sequential model the probe succeeds whenever the query
above it returned no row, because no concurrent writer can insert between the
two, so the IntegrityError handler of lines 633-658 is reachable only under
concurrency and has no live branch here.  The commit-time IntegrityError
handler is modelled in `commitStage`. -/
def completeLessonInternal (env : Env) (db : DB) (u mid lid : Nat)
    (d : CompletionData) : Except Err (DB × CompletionResult) :=
  match lessonOf db lid with
  | none => .error (.notFound "Lesson not found")
  | some lesson =>
    if lesson.module_id ≠ mid then .error (.notFound "Lesson not found")
    else
      match findLP db u lid with
      | some row =>
        if row.is_completed then .ok (db, ⟨row, none, 0, true⟩)
        else runBody env db db lesson row u mid lid d
      | none =>
        let row := newLessonProgress u lid
        runBody env db (addLP db row) lesson row u mid lid d

/-- The route handler `complete_lesson` (modules.py lines 836-884): builds the
response envelope, and on any exception rolls the session back, leaving the
pre-call state. -/
def completeLesson (env : Env) (db : DB) (u mid lid : Nat)
    (d : CompletionData) : DB × ApiResponse :=
  match completeLessonInternal env db u mid lid d with
  | .ok (db2, r) =>
    if r.already_completed then
      (db2, .success r.lesson_progress none 0 true "Lesson already completed")
    else
      (db2, .success r.lesson_progress r.module_progress r.xp_credited false
        "Lesson completed successfully")
  | .error (.notFound msg) => (db, .error msg 404 "LESSON_NOT_FOUND")
  | .error (.integrityError _) =>
    (db, .error "Failed to complete lesson" 500 "LESSON_COMPLETION_ERROR")

/-- `Module.query.filter_by(module_number=..).first()` (line 895). -/
def findModuleByNumber (db : DB) (mn : Nat) : Option Module :=
  db.modules.find? (fun m => m.module_number == mn)

/-- `Lesson.query.filter_by(module_id=.., lesson_number=..).first()`
(lines 900-903). -/
def findLessonByNumber (db : DB) (mid ln : Nat) : Option Lesson :=
  db.lessons.find? (fun l => l.module_id == mid && l.lesson_number == ln)

/-- The route handler `complete_lesson_by_number` (modules.py lines 886-949):
resolve the numbers to ids, then run the same internal completion and build
the same response envelope. -/
def completeLessonByNumber (env : Env) (db : DB) (u mn ln : Nat)
    (d : CompletionData) : DB × ApiResponse :=
  match findModuleByNumber db mn with
  | none =>
    (db, .error ("Module " ++ toString mn ++ " not found") 404
      "LESSON_NOT_FOUND")
  | some m =>
    match findLessonByNumber db m.id ln with
    | none =>
      (db, .error ("Lesson " ++ toString ln ++ " in module " ++ toString mn ++
        " not found") 404 "LESSON_NOT_FOUND")
    | some l =>
      match completeLessonInternal env db u m.id l.id d with
      | .ok (db2, r) =>
        if r.already_completed then
          (db2, .success r.lesson_progress none 0 true
            "Lesson already completed")
        else
          (db2, .success r.lesson_progress r.module_progress r.xp_credited
            false "Lesson completed successfully")
      | .error (.notFound msg) => (db, .error msg 404 "LESSON_NOT_FOUND")
      | .error (.integrityError _) =>
        (db, .error "Failed to complete lesson" 500 "LESSON_COMPLETION_ERROR")

/-! ## Observers on responses -/

/-- The `xp_earned` field of a success response. -/
def respXp : ApiResponse → Option Int
  | .success _ _ xp _ _ => some xp
  | .error _ _ _ => none

/-- The `already_completed` field of a success response. -/
def respAlready : ApiResponse → Option Bool
  | .success _ _ _ a _ => some a
  | .error _ _ _ => none

end Phase1

namespace Phase1

/-! ## Generic list lemmas for the keyed update helpers -/

/-- Mapping a keyed replacement over rows none of which match the key leaves
the list unchanged. -/
theorem map_replace_eq_self {α : Type} (p : α → Bool) (r : α) (xs : List α)
    (h : ∀ x ∈ xs, p x = false) :
    (xs.map fun x => if p x then r else x) = xs := by
  induction xs with
  | nil => rfl
  | cons x t ih =>
    have hx : p x = false := h x (List.mem_cons_self x t)
    have ht := ih fun y hy => h y (List.mem_cons_of_mem x hy)
    simp [hx, ht]

/-- Finding by the key after a keyed replacement yields the replacement
wherever the original search succeeded. -/
theorem find?_map_replace {α : Type} (p : α → Bool) (r : α) (hr : p r = true)
    (xs : List α) :
    (xs.map fun x => if p x then r else x).find? p =
      (match xs.find? p with
       | some _ => some r
       | none => none) := by
  induction xs with
  | nil => rfl
  | cons x t ih =>
    by_cases hx : p x = true
    · rw [List.map_cons, if_pos hx, List.find?_cons_of_pos _ hr,
        List.find?_cons_of_pos _ hx]
    · rw [List.map_cons, if_neg hx, List.find?_cons_of_neg _ hx,
        List.find?_cons_of_neg _ hx, ih]

/-! ## Post-commit hook loop lemmas -/

/-- The no-op hooks of this tree leave the committed state untouched for every
failure pattern. -/
theorem runPostCommitHooks_id_fst {H : Type} (f : Nat → Bool) (h : H) :
    (runPostCommitHooks f id h).1 = h := by
  by_cases h0 : f 0 <;> by_cases h1 : f 1 <;> by_cases h2 : f 2 <;>
    simp [runPostCommitHooks, runHookAttempts, h0, h1, h2]

/-- At most three hook attempts are ever made, and the sleeps between failed
attempts follow the exponential backoff schedule starting at 100 ms. -/
theorem runPostCommitHooks_attempts {H : Type} (f : Nat → Bool) (hook : H → H)
    (h : H) :
    (runPostCommitHooks f hook h).2.1 ≤ 3 ∧
      (runPostCommitHooks f hook h).2.2 =
        (List.range ((runPostCommitHooks f hook h).2.1 - 1)).map
          (fun i => 100 * 2 ^ i) := by
  by_cases h0 : f 0 <;> by_cases h1 : f 1 <;> by_cases h2 : f 2 <;>
    simp [runPostCommitHooks, runHookAttempts, h0, h1, h2, List.range_succ]

/-- When every attempt fails, the state is returned unchanged after exactly
three attempts with sleeps of 100 ms and 200 ms. -/
theorem runPostCommitHooks_all_fail {H : Type} (f : Nat → Bool) (hook : H → H)
    (h : H) (hf : ∀ i, i < 3 → f i = true) :
    runPostCommitHooks f hook h = (h, 3, [100, 200]) := by
  simp [runPostCommitHooks, runHookAttempts, hf 0 (by omega), hf 1 (by omega),
    hf 2 (by omega)]

end Phase1

namespace Phase1

/-! ## Keyed-update simplification lemmas -/

/-- Replacing by key in a list whose existing rows all miss the key and whose
last element hits it rewrites just that last element. -/
theorem map_replace_append_single {α : Type} (p : α → Bool) (r1 r2 : α)
    (xs : List α) (hall : ∀ x ∈ xs, p x = false) (h1 : p r1 = true) :
    ((xs ++ [r1]).map fun x => if p x then r2 else x) = xs ++ [r2] := by
  rw [List.map_append, map_replace_eq_self p r2 xs hall]
  simp [h1]

/-- A failed keyed search means every row misses the key. -/
theorem findLP_none_all (db : DB) (u lid : Nat) (h : findLP db u lid = none) :
    ∀ x ∈ db.lessonProgress, (x.user_id == u && x.lesson_id == lid) = false := by
  intro x hx
  have := List.find?_eq_none.mp h x hx
  simpa using this

/-- A failed keyed search means every aggregate row misses the key. -/
theorem findMP_none_all (db : DB) (u mid : Nat) (h : findMP db u mid = none) :
    ∀ x ∈ db.moduleProgress, (x.user_id == u && x.module_id == mid) = false := by
  intro x hx
  have := List.find?_eq_none.mp h x hx
  simpa using this

/-! ## Early-return and rollback behavior of the routes -/

/-- A call on an already-completed pair leaves the store untouched, whatever
the catalog lookup yields. -/
theorem completeLesson_state_of_completed (env : Env) (db : DB)
    (u mid lid : Nat) (d : CompletionData) (h : completedIn db u lid = true) :
    (completeLesson env db u mid lid d).1 = db := by
  unfold completedIn at h
  unfold completeLesson completeLessonInternal
  cases hL : lessonOf db lid with
  | none => simp
  | some lesson =>
    by_cases hm : lesson.module_id = mid
    · cases hr : findLP db u lid with
      | none => rw [hr] at h; simp at h
      | some row =>
        rw [hr] at h
        simp only [] at h
        simp [hm, h]
    · simp [hm]

end Phase1

namespace Phase1

/-- On an already-completed pair (with the lesson resolvable), the route
returns the already-completed envelope and the exact input state. -/
theorem completeLesson_already (env : Env) (db : DB) (u mid lid : Nat)
    (d : CompletionData) (lesson : Lesson) (row : UserLessonProgress)
    (hL : lessonOf db lid = some lesson) (hm : lesson.module_id = mid)
    (hr : findLP db u lid = some row) (hc : row.is_completed = true) :
    completeLesson env db u mid lid d =
      (db, .success row none 0 true "Lesson already completed") := by
  unfold completeLesson completeLessonInternal
  rw [hL, hr]
  simp [hm, hc]

/-- Under a commit-time IntegrityError, `commitStage` either re-raises or
resolves to the pre-transaction state. -/
theorem commitStage_commitError (env : Env) (db0 db : DB) (u lid : Nat)
    (res : CompletionResult) (msg : String) (h : env.commitError = some msg) :
    commitStage env db0 db u lid res = .error (.integrityError msg) ∨
      ∃ r, commitStage env db0 db u lid res = .ok (db0, r) := by
  unfold commitStage
  rw [h]
  by_cases hu : isUniqueViolationMsg msg = true
  · cases hf : findLP db0 u lid with
    | none => simp [hu, hf]
    | some p => by_cases hp : p.is_completed = true <;> simp [hu, hf, hp]
  · simp [hu]


/-- Under a commit-time IntegrityError, the body of a new completion either
re-raises or resolves to the pre-transaction state. -/
theorem runBody_commitError_cases (env : Env) (db0 db : DB) (lesson : Lesson)
    (row : UserLessonProgress) (u mid lid : Nat) (d : CompletionData)
    (msg : String) (h : env.commitError = some msg) :
    (∃ e, runBody env db0 db lesson row u mid lid d = .error e) ∨
      (∃ r, runBody env db0 db lesson row u mid lid d = .ok (db0, r)) := by
  unfold runBody
  cases hs : updateModuleProgressStage env
      (updateLP db u lid (markCompleted row d env.now)) u mid false with
  | error e => simp [hs]
  | ok pr =>
    obtain ⟨db2, mp1⟩ := pr
    simp only [hs]
    rcases commitStage_commitError env db0
        (creditXpStage db2 u mid lid lesson (markCompleted row d env.now) d false).1
        u lid
        ⟨(creditXpStage db2 u mid lid lesson (markCompleted row d env.now) d false).2.1,
          some mp1,
          (creditXpStage db2 u mid lid lesson (markCompleted row d env.now) d false).2.2,
          false⟩ msg h with he | ⟨r, hr⟩
    · exact .inl ⟨_, he⟩
    · exact .inr ⟨r, hr⟩

/-- Every outcome of the internal completion under a commit failure is an
exception or an `ok` carrying the unchanged input state. -/
theorem internal_commitError_cases (env : Env) (db : DB) (u mid lid : Nat)
    (d : CompletionData) (msg : String) (h : env.commitError = some msg) :
    (∃ e, completeLessonInternal env db u mid lid d = .error e) ∨
      (∃ r, completeLessonInternal env db u mid lid d = .ok (db, r)) := by
  unfold completeLessonInternal
  cases hL : lessonOf db lid with
  | none => exact .inl ⟨_, rfl⟩
  | some lesson =>
    by_cases hm : lesson.module_id = mid
    · cases hr : findLP db u lid with
      | some row =>
        by_cases hc : row.is_completed = true
        · exact .inr ⟨⟨row, none, 0, true⟩, by simp [hm, hc]⟩
        · have := runBody_commitError_cases env db db lesson row u mid lid d msg h
          rcases this with ⟨e, he⟩ | ⟨r, hrr⟩
          · exact .inl ⟨e, by simp [hm, hc, he]⟩
          · exact .inr ⟨r, by simp [hm, hc, hrr]⟩
      | none =>
        have := runBody_commitError_cases env db (addLP db (newLessonProgress u lid))
          lesson (newLessonProgress u lid) u mid lid d msg h
        rcases this with ⟨e, he⟩ | ⟨r, hrr⟩
        · exact .inl ⟨e, by simp [hm, he]⟩
        · exact .inr ⟨r, by simp [hm, hrr]⟩
    · exact .inl ⟨.notFound "Lesson not found", by simp [hm]⟩

/-- With a failing commit, the route hands back the pre-call state whatever
else happens. -/
theorem completeLesson_state_of_commitError (env : Env) (db : DB)
    (u mid lid : Nat) (d : CompletionData) (msg : String)
    (h : env.commitError = some msg) :
    (completeLesson env db u mid lid d).1 = db := by
  unfold completeLesson
  rcases internal_commitError_cases env db u mid lid d msg h with ⟨e, he⟩ | ⟨r, hrr⟩
  · cases e <;> simp [he]
  · rw [hrr]
    by_cases ha : r.already_completed = true <;> simp [ha]

end Phase1

namespace Phase1

/-- Stage equation: an existing aggregate row is incremented and written
back. -/
theorem updateModuleProgressStage_existing (env : Env) (db : DB)
    (u mid : Nat) (mp0 : UserModuleProgress) (M : Module)
    (hmp : findMP db u mid = some mp0) (hM : moduleOf db mid = some M) :
    updateModuleProgressStage env db u mid false =
      .ok (updateMP db u mid
            (updatedModuleProgress mp0 (orZero mp0.completed_lessons + 1)
              M.total_lessons env.now),
          updatedModuleProgress mp0 (orZero mp0.completed_lessons + 1)
            M.total_lessons env.now) := by
  unfold updateModuleProgressStage
  simp [hmp, hM]

/-- Stage equation: a missing aggregate row is created with count 0, then
immediately incremented to 1 and written back. -/
theorem updateModuleProgressStage_create (env : Env) (db : DB)
    (u mid : Nat) (M : Module)
    (hmp : findMP db u mid = none) (hM : moduleOf db mid = some M) :
    updateModuleProgressStage env db u mid false =
      .ok (updateMP (addMP db (newModuleProgress u mid M.total_lessons env.now)) u mid
            (updatedModuleProgress (newModuleProgress u mid M.total_lessons env.now)
              1 M.total_lessons env.now),
          updatedModuleProgress (newModuleProgress u mid M.total_lessons env.now)
            1 M.total_lessons env.now) := by
  have hMf : db.modules.find? (fun m => m.id == mid) = some M := hM
  unfold updateModuleProgressStage
  simp [hmp, moduleOf, hMf, addMP, newModuleProgress, orZero]

end Phase1

namespace Phase1

/-- Keyed write-back against a store whose progress list ends in the one
matching row rewrites exactly that row. -/
theorem updateLP_append (db : DB) (u lid : Nat) (r1 r2 : UserLessonProgress)
    (xs : List UserLessonProgress)
    (hshape : db.lessonProgress = xs ++ [r1])
    (hall : ∀ x ∈ xs, (x.user_id == u && x.lesson_id == lid) = false)
    (h1 : (r1.user_id == u && r1.lesson_id == lid) = true) :
    updateLP db u lid r2 = { db with lessonProgress := xs ++ [r2] } := by
  unfold updateLP
  rw [hshape]
  congr 1
  exact map_replace_append_single _ r1 r2 xs hall h1

/-- Composite equation for the XP credit followed by a successful commit and
the no-op hooks, on a store whose progress rows end in the one just-completed
row. -/
theorem creditCommit_shape (env : Env) (db0 dbA : DB) (u mid lid : Nat)
    (lesson : Lesson) (row1 : UserLessonProgress) (d : CompletionData)
    (mp1 : UserModuleProgress) (xs : List UserLessonProgress)
    (hshape : dbA.lessonProgress = xs ++ [row1])
    (hall : ∀ x ∈ xs, (x.user_id == u && x.lesson_id == lid) = false)
    (h1 : (row1.user_id == u && row1.lesson_id == lid) = true)
    (hc : env.commitError = none) :
    commitStage env db0 (creditXpStage dbA u mid lid lesson row1 d false).1 u lid
        ⟨(creditXpStage dbA u mid lid lesson row1 d false).2.1, some mp1,
          (creditXpStage dbA u mid lid lesson row1 d false).2.2, false⟩ =
      (if 0 < resolveCreditedXp d.xp_earned lesson.xp_reward then
         .ok ({ dbA with
                lessonProgress := xs ++
                  [{ row1 with xp_earned := resolveCreditedXp d.xp_earned lesson.xp_reward }]
                xpTransactions := dbA.xpTransactions ++
                  [newXPTransaction u mid lid lesson (resolveCreditedXp d.xp_earned lesson.xp_reward)]
                users := dbA.users.map fun x =>
                  if x.id == u then
                    { x with total_xp := x.total_xp + resolveCreditedXp d.xp_earned lesson.xp_reward }
                  else x },
              ⟨{ row1 with xp_earned := resolveCreditedXp d.xp_earned lesson.xp_reward },
                some mp1, resolveCreditedXp d.xp_earned lesson.xp_reward, false⟩)
       else .ok (dbA, ⟨row1, some mp1, resolveCreditedXp d.xp_earned lesson.xp_reward, false⟩)) := by
  by_cases hcr : 0 < resolveCreditedXp d.xp_earned lesson.xp_reward
  · have eup := updateLP_append
      (incUserXp { dbA with xpTransactions := dbA.xpTransactions ++
          [newXPTransaction u mid lid lesson (resolveCreditedXp d.xp_earned lesson.xp_reward)] }
        u (resolveCreditedXp d.xp_earned lesson.xp_reward))
      u lid row1 { row1 with xp_earned := resolveCreditedXp d.xp_earned lesson.xp_reward }
      xs (by simpa [incUserXp] using hshape) hall h1
    unfold creditXpStage commitStage
    rw [hc]
    simp only [hcr, if_true, Bool.false_eq_true, if_false]
    rw [runPostCommitHooks_id_fst]
    rw [eup]
    simp [incUserXp]
  · unfold creditXpStage commitStage
    rw [hc]
    simp only [hcr, if_false, Bool.false_eq_true]
    rw [runPostCommitHooks_id_fst]

end Phase1

namespace Phase1

/-- Full equation for the body of a first completion when the aggregate row
already exists, under a successful commit. -/
theorem runBody_fresh_existingMP (env : Env) (db : DB) (lesson : Lesson)
    (u mid lid : Nat) (d : CompletionData) (mp0 : UserModuleProgress) (M : Module)
    (hf : findLP db u lid = none)
    (hmp : findMP db u mid = some mp0) (hM : moduleOf db mid = some M)
    (hc : env.commitError = none) :
    runBody env db (addLP db (newLessonProgress u lid)) lesson
        (newLessonProgress u lid) u mid lid d =
      (if 0 < resolveCreditedXp d.xp_earned lesson.xp_reward then
        .ok ({ db with
               lessonProgress := db.lessonProgress ++
                 [{ markCompleted (newLessonProgress u lid) d env.now with
                    xp_earned := resolveCreditedXp d.xp_earned lesson.xp_reward }]
               moduleProgress := db.moduleProgress.map fun x =>
                 if x.user_id == u && x.module_id == mid then
                   updatedModuleProgress mp0 (orZero mp0.completed_lessons + 1)
                     M.total_lessons env.now
                 else x
               xpTransactions := db.xpTransactions ++
                 [newXPTransaction u mid lid lesson
                   (resolveCreditedXp d.xp_earned lesson.xp_reward)]
               users := db.users.map fun x =>
                 if x.id == u then
                   { x with total_xp := x.total_xp +
                       resolveCreditedXp d.xp_earned lesson.xp_reward }
                 else x },
             ⟨{ markCompleted (newLessonProgress u lid) d env.now with
                 xp_earned := resolveCreditedXp d.xp_earned lesson.xp_reward },
               some (updatedModuleProgress mp0 (orZero mp0.completed_lessons + 1)
                 M.total_lessons env.now),
               resolveCreditedXp d.xp_earned lesson.xp_reward, false⟩)
      else
        .ok ({ db with
               lessonProgress := db.lessonProgress ++
                 [markCompleted (newLessonProgress u lid) d env.now]
               moduleProgress := db.moduleProgress.map fun x =>
                 if x.user_id == u && x.module_id == mid then
                   updatedModuleProgress mp0 (orZero mp0.completed_lessons + 1)
                     M.total_lessons env.now
                 else x },
             ⟨markCompleted (newLessonProgress u lid) d env.now,
               some (updatedModuleProgress mp0 (orZero mp0.completed_lessons + 1)
                 M.total_lessons env.now),
               resolveCreditedXp d.xp_earned lesson.xp_reward, false⟩)) := by
  unfold runBody
  have e1 : updateLP (addLP db (newLessonProgress u lid)) u lid
      (markCompleted (newLessonProgress u lid) d env.now)
      = { db with lessonProgress := db.lessonProgress ++
          [markCompleted (newLessonProgress u lid) d env.now] } := by
    have := updateLP_append (addLP db (newLessonProgress u lid)) u lid
      (newLessonProgress u lid) (markCompleted (newLessonProgress u lid) d env.now)
      db.lessonProgress (by simp [addLP]) (findLP_none_all db u lid hf)
      (by simp [newLessonProgress])
    simpa [addLP] using this
  simp only [e1]
  rw [updateModuleProgressStage_existing env
    { db with lessonProgress := db.lessonProgress ++
        [markCompleted (newLessonProgress u lid) d env.now] } u mid mp0 M hmp hM]
  simp only []
  have erw := creditCommit_shape env db
    (updateMP { db with lessonProgress := db.lessonProgress ++
        [markCompleted (newLessonProgress u lid) d env.now] } u mid
      (updatedModuleProgress mp0 (orZero mp0.completed_lessons + 1)
        M.total_lessons env.now))
    u mid lid lesson (markCompleted (newLessonProgress u lid) d env.now) d
    (updatedModuleProgress mp0 (orZero mp0.completed_lessons + 1)
      M.total_lessons env.now)
    db.lessonProgress (by simp [updateMP]) (findLP_none_all db u lid hf)
    (by simp [markCompleted, newLessonProgress]) hc
  rw [erw]
  by_cases hcr : 0 < resolveCreditedXp d.xp_earned lesson.xp_reward <;>
    simp [hcr, updateMP]

end Phase1

namespace Phase1

/-- Aggregate-row analogue of `updateLP_append`. -/
theorem updateMP_append (db : DB) (u mid : Nat) (r1 r2 : UserModuleProgress)
    (xs : List UserModuleProgress)
    (hshape : db.moduleProgress = xs ++ [r1])
    (hall : ∀ x ∈ xs, (x.user_id == u && x.module_id == mid) = false)
    (h1 : (r1.user_id == u && r1.module_id == mid) = true) :
    updateMP db u mid r2 = { db with moduleProgress := xs ++ [r2] } := by
  unfold updateMP
  rw [hshape]
  congr 1
  exact map_replace_append_single _ r1 r2 xs hall h1

/-- Full equation for the body of a first completion when the aggregate row
is created lazily, under a successful commit. -/
theorem runBody_fresh_createMP (env : Env) (db : DB) (lesson : Lesson)
    (u mid lid : Nat) (d : CompletionData) (M : Module)
    (hf : findLP db u lid = none)
    (hmp : findMP db u mid = none) (hM : moduleOf db mid = some M)
    (hc : env.commitError = none) :
    runBody env db (addLP db (newLessonProgress u lid)) lesson
        (newLessonProgress u lid) u mid lid d =
      (if 0 < resolveCreditedXp d.xp_earned lesson.xp_reward then
        .ok ({ db with
               lessonProgress := db.lessonProgress ++
                 [{ markCompleted (newLessonProgress u lid) d env.now with
                    xp_earned := resolveCreditedXp d.xp_earned lesson.xp_reward }]
               moduleProgress := db.moduleProgress ++
                 [updatedModuleProgress (newModuleProgress u mid M.total_lessons env.now)
                   1 M.total_lessons env.now]
               xpTransactions := db.xpTransactions ++
                 [newXPTransaction u mid lid lesson
                   (resolveCreditedXp d.xp_earned lesson.xp_reward)]
               users := db.users.map fun x =>
                 if x.id == u then
                   { x with total_xp := x.total_xp +
                       resolveCreditedXp d.xp_earned lesson.xp_reward }
                 else x },
             ⟨{ markCompleted (newLessonProgress u lid) d env.now with
                 xp_earned := resolveCreditedXp d.xp_earned lesson.xp_reward },
               some (updatedModuleProgress (newModuleProgress u mid M.total_lessons env.now)
                 1 M.total_lessons env.now),
               resolveCreditedXp d.xp_earned lesson.xp_reward, false⟩)
      else
        .ok ({ db with
               lessonProgress := db.lessonProgress ++
                 [markCompleted (newLessonProgress u lid) d env.now]
               moduleProgress := db.moduleProgress ++
                 [updatedModuleProgress (newModuleProgress u mid M.total_lessons env.now)
                   1 M.total_lessons env.now] },
             ⟨markCompleted (newLessonProgress u lid) d env.now,
               some (updatedModuleProgress (newModuleProgress u mid M.total_lessons env.now)
                 1 M.total_lessons env.now),
               resolveCreditedXp d.xp_earned lesson.xp_reward, false⟩)) := by
  unfold runBody
  have e1 : updateLP (addLP db (newLessonProgress u lid)) u lid
      (markCompleted (newLessonProgress u lid) d env.now)
      = { db with lessonProgress := db.lessonProgress ++
          [markCompleted (newLessonProgress u lid) d env.now] } := by
    have := updateLP_append (addLP db (newLessonProgress u lid)) u lid
      (newLessonProgress u lid) (markCompleted (newLessonProgress u lid) d env.now)
      db.lessonProgress (by simp [addLP]) (findLP_none_all db u lid hf)
      (by simp [newLessonProgress])
    simpa [addLP] using this
  simp only [e1]
  rw [updateModuleProgressStage_create env
    { db with lessonProgress := db.lessonProgress ++
        [markCompleted (newLessonProgress u lid) d env.now] } u mid M hmp hM]
  have e2 : updateMP (addMP { db with lessonProgress := db.lessonProgress ++
        [markCompleted (newLessonProgress u lid) d env.now] }
        (newModuleProgress u mid M.total_lessons env.now)) u mid
      (updatedModuleProgress (newModuleProgress u mid M.total_lessons env.now)
        1 M.total_lessons env.now) =
      { db with
        lessonProgress := db.lessonProgress ++
          [markCompleted (newLessonProgress u lid) d env.now]
        moduleProgress := db.moduleProgress ++
          [updatedModuleProgress (newModuleProgress u mid M.total_lessons env.now)
            1 M.total_lessons env.now] } := by
    have := updateMP_append (addMP { db with lessonProgress := db.lessonProgress ++
        [markCompleted (newLessonProgress u lid) d env.now] }
        (newModuleProgress u mid M.total_lessons env.now)) u mid
      (newModuleProgress u mid M.total_lessons env.now)
      (updatedModuleProgress (newModuleProgress u mid M.total_lessons env.now)
        1 M.total_lessons env.now)
      db.moduleProgress (by simp [addMP]) (findMP_none_all db u mid hmp)
      (by simp [newModuleProgress])
    simpa [addMP] using this
  simp only [e2]
  have erw := creditCommit_shape env db
    ({ db with
       lessonProgress := db.lessonProgress ++
         [markCompleted (newLessonProgress u lid) d env.now]
       moduleProgress := db.moduleProgress ++
         [updatedModuleProgress (newModuleProgress u mid M.total_lessons env.now)
           1 M.total_lessons env.now] })
    u mid lid lesson (markCompleted (newLessonProgress u lid) d env.now) d
    (updatedModuleProgress (newModuleProgress u mid M.total_lessons env.now)
      1 M.total_lessons env.now)
    db.lessonProgress (by simp) (findLP_none_all db u lid hf)
    (by simp [markCompleted, newLessonProgress]) hc
  rw [erw]

end Phase1

namespace Phase1

/-! ## Traces of completion calls -/

/-- One request against the store: the environment inputs plus the route
parameters of `complete_lesson`. -/
structure Call where
  env : Env
  user_id : Nat
  module_id : Nat
  lesson_id : Nat
  data : CompletionData

/-- The state left behind by one route call (errors roll back). -/
def execCall (db : DB) (c : Call) : DB :=
  (completeLesson c.env db c.user_id c.module_id c.lesson_id c.data).1

/-- The state after a sequence of route calls. -/
def execTrace (db : DB) (tr : List Call) : DB :=
  tr.foldl execCall db

/-- A fresh deployment: empty progress and ledger tables, and a catalog whose
denormalized `Module.total_lessons` agrees with the lesson table, as the spec
defines it (section 3). -/
def InitState (db : DB) : Prop :=
  db.lessonProgress = [] ∧ db.moduleProgress = [] ∧ db.xpTransactions = [] ∧
    ∀ m ∈ db.modules,
      m.total_lessons = (db.lessons.filter fun l => l.module_id == m.id).length

/-- The inductive invariant of reachable stores. -/
structure Inv (db : DB) : Prop where
  catalog : ∀ m ∈ db.modules,
    m.total_lessons = (db.lessons.filter fun l => l.module_id == m.id).length
  lpKeys : (db.lessonProgress.map fun r => (r.user_id, r.lesson_id)).Nodup
  lpCompleted : ∀ r ∈ db.lessonProgress, r.is_completed = true
  lpLesson : ∀ r ∈ db.lessonProgress, ∃ l ∈ db.lessons, (l.id == r.lesson_id) = true
  mpCount : ∀ mp ∈ db.moduleProgress,
    mp.completed_lessons = some (moduleCompletedCount db mp.user_id mp.module_id)
  mpAbsent : ∀ u mid, findMP db u mid = none → moduleCompletedCount db u mid = 0
  mpTotal : ∀ mp ∈ db.moduleProgress,
    ∃ M, moduleOf db mp.module_id = some M ∧ mp.total_lessons = M.total_lessons
  mpFlag : ∀ mp ∈ db.moduleProgress,
    mp.is_completed = decide (mp.total_lessons ≤ orZero mp.completed_lessons)
  txBound : ∀ u lid, txCount db u lid ≤ 1
  txCompleted : ∀ u lid, 0 < txCount db u lid → completedIn db u lid = true

/-- A fresh deployment satisfies the invariant. -/
theorem inv_init (db : DB) (h : InitState db) : Inv db := by
  obtain ⟨h1, h2, h3, h4⟩ := h
  refine ⟨h4, ?_, ?_, ?_, ?_, ?_, ?_, ?_, ?_, ?_⟩ <;>
    simp [h1, h2, h3, moduleCompletedCount, completedCountAux, txCount,
      completedIn, findLP]

/-! ## Counting lemmas -/

/-- Appending one row shifts the per-module completed count by its filter
bit. -/
theorem completedCountAux_append (L : List Lesson)
    (xs : List UserLessonProgress) (r : UserLessonProgress) (u mid : Nat) :
    completedCountAux L (xs ++ [r]) u mid =
      completedCountAux L xs u mid +
        (if (r.user_id == u && r.is_completed &&
              (match L.find? (fun l => l.id == r.lesson_id) with
               | some l => l.module_id == mid
               | none => false)) then 1 else 0) := by
  unfold completedCountAux
  rw [List.filter_append]
  by_cases hp : (r.user_id == u && r.is_completed &&
      (match L.find? (fun l => l.id == r.lesson_id) with
       | some l => l.module_id == mid
       | none => false)) = true <;>
    simp [hp]

/-- Replacing aggregate rows leaves the per-module completed count alone (it
reads only the lesson-progress and lesson tables). -/
theorem moduleCompletedCount_mp_irrelevant (db : DB)
    (mpl : List UserModuleProgress) (u mid : Nat) :
    moduleCompletedCount { db with moduleProgress := mpl } u mid =
      moduleCompletedCount db u mid := rfl

/-- The ledger count for a pair after appending one transaction row, stated
for any store whose ledger has the extended shape. -/
theorem txCount_shape (db db2 : DB) (tx : XPTransaction) (u lid : Nat)
    (hshape : db2.xpTransactions = db.xpTransactions ++ [tx]) :
    txCount db2 u lid =
      txCount db u lid +
        (if (tx.user_id == u && tx.meta_lesson_id == lid) then 1 else 0) := by
  unfold txCount
  rw [hshape, List.filter_append]
  by_cases hp : (tx.user_id == u && tx.meta_lesson_id == lid) = true <;> simp [hp]

/-- An unchanged ledger keeps its per-pair counts. -/
theorem txCount_shape_same (db db2 : DB) (u lid : Nat)
    (hshape : db2.xpTransactions = db.xpTransactions) :
    txCount db2 u lid = txCount db u lid := by
  unfold txCount
  rw [hshape]

/-- Membership search in an extended progress table, stated for any store
whose progress list has the extended shape. -/
theorem findLP_shape (db db2 : DB) (r : UserLessonProgress) (u lid : Nat)
    (hshape : db2.lessonProgress = db.lessonProgress ++ [r]) :
    findLP db2 u lid =
      (findLP db u lid).or
        (if (r.user_id == u && r.lesson_id == lid) then some r else none) := by
  unfold findLP
  rw [hshape, List.find?_append]
  by_cases hp : (r.user_id == u && r.lesson_id == lid) = true <;> simp [hp]

end Phase1

namespace Phase1

/-- Appending the newly completed row bumps exactly its own (user, module)
bucket of the completed count. -/
theorem count_shift (db : DB) (u mid lid : Nat) (lesson : Lesson)
    (rowF : UserLessonProgress)
    (hL : lessonOf db lid = some lesson) (hm : lesson.module_id = mid)
    (hru : rowF.user_id = u) (hrl : rowF.lesson_id = lid)
    (hrc : rowF.is_completed = true) (u' mid' : Nat) :
    completedCountAux db.lessons (db.lessonProgress ++ [rowF]) u' mid' =
      moduleCompletedCount db u' mid' +
        (if (u == u' && mid == mid') then 1 else 0) := by
  have hL' : db.lessons.find? (fun l => l.id == lid) = some lesson := hL
  rw [completedCountAux_append]
  unfold moduleCompletedCount
  congr 1
  rw [hru, hrl, hrc, hL']
  simp [hm]

/-- The new pair is absent from the old key list. -/
theorem key_not_mem_of_findLP_none (db : DB) (u lid : Nat)
    (h : findLP db u lid = none) :
    (u, lid) ∉ db.lessonProgress.map fun r => (r.user_id, r.lesson_id) := by
  intro hmem
  rcases List.mem_map.mp hmem with ⟨r, hr, hk⟩
  have := findLP_none_all db u lid h r hr
  have h1 : r.user_id = u := congrArg Prod.fst hk
  have h2 : r.lesson_id = lid := congrArg Prod.snd hk
  simp [h1, h2] at this

/-- Pair completion in the extended table. -/
theorem completedIn_shape (db db2 : DB) (rowF : UserLessonProgress)
    (u lid u' lid' : Nat)
    (hshape : db2.lessonProgress = db.lessonProgress ++ [rowF])
    (hru : rowF.user_id = u) (hrl : rowF.lesson_id = lid)
    (hrc : rowF.is_completed = true) (hf : findLP db u lid = none) :
    completedIn db2 u' lid' =
      (if u = u' ∧ lid = lid' then true else completedIn db u' lid') := by
  unfold completedIn
  rw [findLP_shape db db2 rowF u' lid' hshape]
  by_cases hp : u = u' ∧ lid = lid'
  · obtain ⟨h1, h2⟩ := hp
    have hb : (rowF.user_id == u' && rowF.lesson_id == lid') = true := by
      simp [hru, hrl, h1, h2]
    have hfl : findLP db u' lid' = none := by rw [← h1, ← h2]; exact hf
    simp [hb, h1, h2, hrc, hfl]
  · have hb : (rowF.user_id == u' && rowF.lesson_id == lid') = false := by
      rcases Decidable.not_and_iff_or_not.mp hp with h1 | h1 <;> simp [hru, hrl] <;>
        omega
    cases hfl : findLP db u' lid' with
    | none => simp [hb, hp]
    | some r => simp [hb, hp, hfl]

end Phase1
namespace Phase1

/-- The invariant survives a first completion that updates an existing
aggregate row (the users table is irrelevant to the invariant and is left
arbitrary). -/
theorem inv_shape_existing (db : DB) (hI : Inv db) (env : Env)
    (u mid lid : Nat) (lesson : Lesson) (rowF : UserLessonProgress)
    (mp0 : UserModuleProgress) (M : Module)
    (TXS : List XPTransaction) (US : List User)
    (hL : lessonOf db lid = some lesson) (hm : lesson.module_id = mid)
    (hf : findLP db u lid = none) (hmp : findMP db u mid = some mp0)
    (hM : moduleOf db mid = some M)
    (hru : rowF.user_id = u) (hrl : rowF.lesson_id = lid)
    (hrc : rowF.is_completed = true)
    (htx : TXS = [] ∨ ∃ amt, TXS = [newXPTransaction u mid lid lesson amt]) :
    Inv { db with
          lessonProgress := db.lessonProgress ++ [rowF]
          moduleProgress := db.moduleProgress.map fun x =>
            if x.user_id == u && x.module_id == mid then
              updatedModuleProgress mp0 (orZero mp0.completed_lessons + 1)
                M.total_lessons env.now
            else x
          xpTransactions := db.xpTransactions ++ TXS
          users := US } := by
  have hL' : db.lessons.find? (fun l => l.id == lid) = some lesson := hL
  have hmpL : db.moduleProgress.find?
      (fun r => r.user_id == u && r.module_id == mid) = some mp0 := hmp
  have hmem0 : mp0 ∈ db.moduleProgress := List.mem_of_find?_eq_some hmpL
  have hkey0 : (mp0.user_id == u && mp0.module_id == mid) = true :=
    List.find?_some (p := fun (r : UserModuleProgress) => r.user_id == u && r.module_id == mid) hmpL
  have hk0u : mp0.user_id = u := by
    simp at hkey0
    exact hkey0.1
  have hk0m : mp0.module_id = mid := by
    simp only [Bool.and_eq_true, beq_iff_eq] at hkey0
    exact hkey0.2
  have hcount0 : mp0.completed_lessons = some (moduleCompletedCount db u mid) := by
    have h := hI.mpCount mp0 hmem0
    rw [hk0u, hk0m] at h
    exact h
  have htot0 : mp0.total_lessons = M.total_lessons := by
    obtain ⟨M2, hM2, ht⟩ := hI.mpTotal mp0 hmem0
    rw [hk0m, hM] at hM2
    cases hM2
    exact ht
  have hshift : ∀ u' m', completedCountAux db.lessons (db.lessonProgress ++ [rowF]) u' m' =
      moduleCompletedCount db u' m' + (if (u == u' && mid == m') then 1 else 0) :=
    count_shift db u mid lid lesson rowF hL hm hru hrl hrc
  have hnotdone : completedIn db u lid = false := by
    unfold completedIn
    rw [hf]
  have htx0 : txCount db u lid = 0 := by
    by_contra hne
    have h := hI.txCompleted u lid (Nat.pos_of_ne_zero hne)
    rw [hnotdone] at h
    exact Bool.false_ne_true h
  refine ⟨?_, ?_, ?_, ?_, ?_, ?_, ?_, ?_, ?_, ?_⟩
  · exact hI.catalog
  · -- lpKeys
    have hkmem := key_not_mem_of_findLP_none db u lid hf
    simp only [List.map_append, List.map_cons, List.map_nil]
    rw [List.nodup_append]
    refine ⟨hI.lpKeys, List.nodup_singleton _, ?_⟩
    intro a ha hb
    simp only [List.mem_singleton] at hb
    subst hb
    rw [hru, hrl] at ha
    exact hkmem ha
  · -- lpCompleted
    intro r hr
    rcases List.mem_append.mp hr with h | h
    · exact hI.lpCompleted r h
    · simp at h
      rw [h]
      exact hrc
  · -- lpLesson
    intro r hr
    rcases List.mem_append.mp hr with h | h
    · exact hI.lpLesson r h
    · simp at h
      subst h
      refine ⟨lesson, List.mem_of_find?_eq_some hL', ?_⟩
      rw [hrl]
      exact List.find?_some (p := fun (l : Lesson) => l.id == lid) hL'
  · -- mpCount
    intro mp' hmp'
    rcases List.mem_map.mp hmp' with ⟨x, hx, heq⟩
    by_cases hkx : (x.user_id == u && x.module_id == mid) = true
    · rw [if_pos hkx] at heq
      subst heq
      have hcnt : completedCountAux db.lessons (db.lessonProgress ++ [rowF]) u mid =
          moduleCompletedCount db u mid + 1 := by
        rw [hshift u mid]
        simp
      show (updatedModuleProgress mp0 (orZero mp0.completed_lessons + 1)
          M.total_lessons env.now).completed_lessons = _
      simp only [updatedModuleProgress, hk0u, hk0m]
      rw [hcount0]
      show some (orZero (some (moduleCompletedCount db u mid)) + 1) = _
      simp only [orZero]
      show _ = some (completedCountAux db.lessons (db.lessonProgress ++ [rowF]) u mid)
      rw [hcnt]
    · rw [if_neg hkx] at heq
      subst heq
      have hbit : (u == x.user_id && mid == x.module_id) = false := by
        simp only [Bool.and_eq_true, beq_iff_eq] at hkx
        simp only [Bool.and_eq_false_iff, beq_eq_false_iff_ne, ne_eq]
        by_cases h1 : x.user_id = u
        · right
          intro h2
          exact hkx ⟨h1, h2.symm⟩
        · left
          intro h2
          exact h1 h2.symm
      have hcnt : completedCountAux db.lessons (db.lessonProgress ++ [rowF])
          x.user_id x.module_id = moduleCompletedCount db x.user_id x.module_id := by
        rw [hshift x.user_id x.module_id, hbit]
        simp
      show x.completed_lessons = some (completedCountAux db.lessons
        (db.lessonProgress ++ [rowF]) x.user_id x.module_id)
      rw [hcnt]
      exact hI.mpCount x hx
  · -- mpAbsent
    intro u' m' hnone
    have hmp1mem : (updatedModuleProgress mp0 (orZero mp0.completed_lessons + 1)
        M.total_lessons env.now) ∈ db.moduleProgress.map fun x =>
          if x.user_id == u && x.module_id == mid then
            updatedModuleProgress mp0 (orZero mp0.completed_lessons + 1)
              M.total_lessons env.now
          else x :=
      List.mem_map.mpr ⟨mp0, hmem0, by rw [if_pos hkey0]⟩
    have hall := List.find?_eq_none.mp hnone
    have hmp1fail := hall _ hmp1mem
    have hne : ¬ (u = u' ∧ mid = m') := by
      intro hpair
      apply hmp1fail
      simp [updatedModuleProgress, hk0u, hk0m, hpair.1, hpair.2]
    have hbit : (u == u' && mid == m') = false := by
      simp only [Bool.and_eq_false_iff, beq_eq_false_iff_ne, ne_eq]
      by_cases h1 : u = u'
      · right
        intro h2
        exact hne ⟨h1, h2⟩
      · left
        exact h1
    have hdbnone : findMP db u' m' = none := by
      unfold findMP
      rw [List.find?_eq_none]
      intro x hx hkey
      by_cases hkx : (x.user_id == u && x.module_id == mid) = true
      · simp only [Bool.and_eq_true, beq_iff_eq] at hkx hkey
        exact hne ⟨hkx.1 ▸ hkey.1 ▸ rfl, hkx.2 ▸ hkey.2 ▸ rfl⟩
      · have hxmem : x ∈ db.moduleProgress.map fun y =>
            if y.user_id == u && y.module_id == mid then
              updatedModuleProgress mp0 (orZero mp0.completed_lessons + 1)
                M.total_lessons env.now
            else y :=
          List.mem_map.mpr ⟨x, hx, by rw [if_neg hkx]⟩
        exact hall _ hxmem hkey
    show completedCountAux db.lessons (db.lessonProgress ++ [rowF]) u' m' = 0
    rw [hshift u' m', hbit]
    simp [hI.mpAbsent u' m' hdbnone]
  · -- mpTotal
    intro mp' hmp'
    rcases List.mem_map.mp hmp' with ⟨x, hx, heq⟩
    by_cases hkx : (x.user_id == u && x.module_id == mid) = true
    · rw [if_pos hkx] at heq
      subst heq
      refine ⟨M, ?_, ?_⟩
      · show moduleOf db _ = some M
        have hmid : (updatedModuleProgress mp0 (orZero mp0.completed_lessons + 1)
            M.total_lessons env.now).module_id = mid := by
          simp [updatedModuleProgress, hk0m]
        rw [hmid]
        exact hM
      · simp [updatedModuleProgress]
    · rw [if_neg hkx] at heq
      subst heq
      exact hI.mpTotal x hx
  · -- mpFlag
    intro mp' hmp'
    rcases List.mem_map.mp hmp' with ⟨x, hx, heq⟩
    by_cases hkx : (x.user_id == u && x.module_id == mid) = true
    · rw [if_pos hkx] at heq
      subst heq
      have hflag0 := hI.mpFlag mp0 hmem0
      rw [htot0, hcount0] at hflag0
      simp only [updatedModuleProgress, hcount0, orZero]
      by_cases hle : M.total_lessons ≤ moduleCompletedCount db u mid + 1
      · simp [hle]
      · have hle0 : ¬ M.total_lessons ≤ moduleCompletedCount db u mid := by omega
        simp only [orZero] at hflag0
        simp [hle, hflag0, hle0]
    · rw [if_neg hkx] at heq
      subst heq
      exact hI.mpFlag x hx
  · -- txBound
    intro u' l'
    rcases htx with h0 | ⟨amt, h1⟩
    · subst h0
      have hsame : (db.xpTransactions ++ ([] : List XPTransaction)) = db.xpTransactions := by
        simp
      show ((db.xpTransactions ++ ([] : List XPTransaction)).filter _).length ≤ 1
      rw [hsame]
      exact hI.txBound u' l'
    · subst h1
      have hsh := txCount_shape db
        { db with
          lessonProgress := db.lessonProgress ++ [rowF]
          moduleProgress := db.moduleProgress.map fun x =>
            if x.user_id == u && x.module_id == mid then
              updatedModuleProgress mp0 (orZero mp0.completed_lessons + 1)
                M.total_lessons env.now
            else x
          xpTransactions := db.xpTransactions ++ [newXPTransaction u mid lid lesson amt]
          users := US }
        (newXPTransaction u mid lid lesson amt) u' l' rfl
      rw [hsh]
      by_cases hp : (u = u' ∧ lid = l')
      · have hb : ((newXPTransaction u mid lid lesson amt).user_id == u' &&
            (newXPTransaction u mid lid lesson amt).meta_lesson_id == l') = true := by
          simp [newXPTransaction, hp.1, hp.2]
        rw [← hp.1, ← hp.2, htx0]
        simp only [Nat.zero_add]
        split <;> omega
      · have hb : ((newXPTransaction u mid lid lesson amt).user_id == u' &&
            (newXPTransaction u mid lid lesson amt).meta_lesson_id == l') = false := by
          simp only [newXPTransaction]
          simp only [Bool.and_eq_false_iff, beq_eq_false_iff_ne, ne_eq]
          by_cases h1 : u = u'
          · right
            intro h2
            exact hp ⟨h1, h2⟩
          · left
            exact h1
        rw [hb]
        simp [hI.txBound u' l']
  · -- txCompleted
    intro u' l' hpos
    have hci := completedIn_shape db
      { db with
        lessonProgress := db.lessonProgress ++ [rowF]
        moduleProgress := db.moduleProgress.map fun x =>
          if x.user_id == u && x.module_id == mid then
            updatedModuleProgress mp0 (orZero mp0.completed_lessons + 1)
              M.total_lessons env.now
          else x
        xpTransactions := db.xpTransactions ++ TXS
        users := US } rowF u lid u' l' rfl hru hrl hrc hf
    rw [hci]
    by_cases hp : (u = u' ∧ lid = l')
    · simp [hp]
    · rw [if_neg hp]
      apply hI.txCompleted u' l'
      rcases htx with h0 | ⟨amt, h1⟩
      · subst h0
        have hsame : (db.xpTransactions ++ ([] : List XPTransaction)) = db.xpTransactions := by
          simp
        unfold txCount at hpos ⊢
        rw [hsame] at hpos
        exact hpos
      · subst h1
        have hsh := txCount_shape db
          { db with
            lessonProgress := db.lessonProgress ++ [rowF]
            moduleProgress := db.moduleProgress.map fun x =>
              if x.user_id == u && x.module_id == mid then
                updatedModuleProgress mp0 (orZero mp0.completed_lessons + 1)
                  M.total_lessons env.now
              else x
            xpTransactions := db.xpTransactions ++ [newXPTransaction u mid lid lesson amt]
            users := US }
          (newXPTransaction u mid lid lesson amt) u' l' rfl
        rw [hsh] at hpos
        have hb : ((newXPTransaction u mid lid lesson amt).user_id == u' &&
            (newXPTransaction u mid lid lesson amt).meta_lesson_id == l') = false := by
          simp only [newXPTransaction]
          simp only [Bool.and_eq_false_iff, beq_eq_false_iff_ne, ne_eq]
          by_cases h1 : u = u'
          · right
            intro h2
            exact hp ⟨h1, h2⟩
          · left
            exact h1
        rw [hb] at hpos
        simpa using hpos

end Phase1
namespace Phase1

/-- The invariant survives a first completion that creates the aggregate row
lazily. -/
theorem inv_shape_create (db : DB) (hI : Inv db) (env : Env)
    (u mid lid : Nat) (lesson : Lesson) (rowF : UserLessonProgress)
    (M : Module) (TXS : List XPTransaction) (US : List User)
    (hL : lessonOf db lid = some lesson) (hm : lesson.module_id = mid)
    (hf : findLP db u lid = none) (hmp : findMP db u mid = none)
    (hM : moduleOf db mid = some M)
    (hru : rowF.user_id = u) (hrl : rowF.lesson_id = lid)
    (hrc : rowF.is_completed = true)
    (htx : TXS = [] ∨ ∃ amt, TXS = [newXPTransaction u mid lid lesson amt]) :
    Inv { db with
          lessonProgress := db.lessonProgress ++ [rowF]
          moduleProgress := db.moduleProgress ++
            [updatedModuleProgress (newModuleProgress u mid M.total_lessons env.now)
              1 M.total_lessons env.now]
          xpTransactions := db.xpTransactions ++ TXS
          users := US } := by
  have hL' : db.lessons.find? (fun l => l.id == lid) = some lesson := hL
  have hshift : ∀ u' m', completedCountAux db.lessons (db.lessonProgress ++ [rowF]) u' m' =
      moduleCompletedCount db u' m' + (if (u == u' && mid == m') = true then 1 else 0) :=
    count_shift db u mid lid lesson rowF hL hm hru hrl hrc
  have hnotdone : completedIn db u lid = false := by
    unfold completedIn
    rw [hf]
  have htx0 : txCount db u lid = 0 := by
    by_contra hne
    have h := hI.txCompleted u lid (Nat.pos_of_ne_zero hne)
    rw [hnotdone] at h
    exact Bool.false_ne_true h
  have hcnt0 : moduleCompletedCount db u mid = 0 := hI.mpAbsent u mid hmp
  have hmpkeys : ∀ x ∈ db.moduleProgress, (x.user_id == u && x.module_id == mid) = false :=
    findMP_none_all db u mid hmp
  have hnewu : (updatedModuleProgress (newModuleProgress u mid M.total_lessons env.now)
      1 M.total_lessons env.now).user_id = u := rfl
  have hnewm : (updatedModuleProgress (newModuleProgress u mid M.total_lessons env.now)
      1 M.total_lessons env.now).module_id = mid := rfl
  refine ⟨?_, ?_, ?_, ?_, ?_, ?_, ?_, ?_, ?_, ?_⟩
  · exact hI.catalog
  · have hkmem := key_not_mem_of_findLP_none db u lid hf
    simp only [List.map_append, List.map_cons, List.map_nil]
    rw [List.nodup_append]
    refine ⟨hI.lpKeys, List.nodup_singleton _, ?_⟩
    intro a ha hb
    simp only [List.mem_singleton] at hb
    subst hb
    rw [hru, hrl] at ha
    exact hkmem ha
  · intro r hr
    rcases List.mem_append.mp hr with h | h
    · exact hI.lpCompleted r h
    · simp at h
      rw [h]
      exact hrc
  · intro r hr
    rcases List.mem_append.mp hr with h | h
    · exact hI.lpLesson r h
    · simp at h
      subst h
      refine ⟨lesson, List.mem_of_find?_eq_some hL', ?_⟩
      rw [hrl]
      exact List.find?_some (p := fun (l : Lesson) => l.id == lid) hL'
  · -- mpCount
    intro mp' hmp'
    rcases List.mem_append.mp hmp' with hx | hx
    · have hbit : (u == mp'.user_id && mid == mp'.module_id) = false := by
        have hfail := hmpkeys mp' hx
        simp only [Bool.and_eq_false_iff, beq_eq_false_iff_ne, ne_eq] at hfail ⊢
        rcases hfail with h1 | h1
        · left
          intro h2
          exact h1 h2.symm
        · right
          intro h2
          exact h1 h2.symm
      have hcnt : completedCountAux db.lessons (db.lessonProgress ++ [rowF])
          mp'.user_id mp'.module_id = moduleCompletedCount db mp'.user_id mp'.module_id := by
        rw [hshift mp'.user_id mp'.module_id, hbit]
        simp
      show mp'.completed_lessons = some (completedCountAux db.lessons
        (db.lessonProgress ++ [rowF]) mp'.user_id mp'.module_id)
      rw [hcnt]
      exact hI.mpCount mp' hx
    · simp only [List.mem_singleton] at hx
      subst hx
      have hcnt : completedCountAux db.lessons (db.lessonProgress ++ [rowF]) u mid =
          moduleCompletedCount db u mid + 1 := by
        rw [hshift u mid]
        simp
      show some 1 = _
      rw [hnewu, hnewm]
      show some 1 = some (completedCountAux db.lessons
        (db.lessonProgress ++ [rowF]) u mid)
      rw [hcnt, hcnt0]
  · -- mpAbsent
    intro u' m' hnone
    have hall := List.find?_eq_none.mp hnone
    have hnewmem : (updatedModuleProgress (newModuleProgress u mid M.total_lessons env.now)
        1 M.total_lessons env.now) ∈ db.moduleProgress ++
          [updatedModuleProgress (newModuleProgress u mid M.total_lessons env.now)
            1 M.total_lessons env.now] :=
      List.mem_append.mpr (.inr (List.mem_singleton_self _))
    have hnewfail := hall _ hnewmem
    have hne : ¬ (u = u' ∧ mid = m') := by
      intro hpair
      apply hnewfail
      simp only [Bool.and_eq_true, beq_iff_eq]
      exact ⟨hnewu.trans hpair.1, hnewm.trans hpair.2⟩
    have hbit : (u == u' && mid == m') = false := by
      simp only [Bool.and_eq_false_iff, beq_eq_false_iff_ne, ne_eq]
      by_cases h1 : u = u'
      · right
        intro h2
        exact hne ⟨h1, h2⟩
      · left
        exact h1
    have hdbnone : findMP db u' m' = none := by
      unfold findMP
      rw [List.find?_eq_none]
      intro x hx hkey
      exact hall x (List.mem_append.mpr (.inl hx)) hkey
    show completedCountAux db.lessons (db.lessonProgress ++ [rowF]) u' m' = 0
    rw [hshift u' m', hbit]
    simp [hI.mpAbsent u' m' hdbnone]
  · -- mpTotal
    intro mp' hmp'
    rcases List.mem_append.mp hmp' with hx | hx
    · exact hI.mpTotal mp' hx
    · simp only [List.mem_singleton] at hx
      subst hx
      refine ⟨M, ?_, ?_⟩
      · show moduleOf db _ = some M
        rw [hnewm]
        exact hM
      · rfl
  · -- mpFlag
    intro mp' hmp'
    rcases List.mem_append.mp hmp' with hx | hx
    · exact hI.mpFlag mp' hx
    · simp only [List.mem_singleton] at hx
      subst hx
      show (if M.total_lessons ≤ 1 then true else false) = _
      by_cases hle : M.total_lessons ≤ 1 <;>
        simp [hle, updatedModuleProgress, orZero]
  · -- txBound
    intro u' l'
    rcases htx with h0 | ⟨amt, h1⟩
    · subst h0
      have hsame : (db.xpTransactions ++ ([] : List XPTransaction)) = db.xpTransactions := by
        simp
      show ((db.xpTransactions ++ ([] : List XPTransaction)).filter _).length ≤ 1
      rw [hsame]
      exact hI.txBound u' l'
    · subst h1
      have hsh := txCount_shape db
        { db with
          lessonProgress := db.lessonProgress ++ [rowF]
          moduleProgress := db.moduleProgress ++
            [updatedModuleProgress (newModuleProgress u mid M.total_lessons env.now)
              1 M.total_lessons env.now]
          xpTransactions := db.xpTransactions ++ [newXPTransaction u mid lid lesson amt]
          users := US }
        (newXPTransaction u mid lid lesson amt) u' l' rfl
      rw [hsh]
      by_cases hp : (u = u' ∧ lid = l')
      · rw [← hp.1, ← hp.2, htx0]
        simp only [Nat.zero_add]
        split <;> omega
      · have hb : ((newXPTransaction u mid lid lesson amt).user_id == u' &&
            (newXPTransaction u mid lid lesson amt).meta_lesson_id == l') = false := by
          simp only [newXPTransaction]
          simp only [Bool.and_eq_false_iff, beq_eq_false_iff_ne, ne_eq]
          by_cases h1 : u = u'
          · right
            intro h2
            exact hp ⟨h1, h2⟩
          · left
            exact h1
        rw [hb]
        simp [hI.txBound u' l']
  · -- txCompleted
    intro u' l' hpos
    have hci := completedIn_shape db
      { db with
        lessonProgress := db.lessonProgress ++ [rowF]
        moduleProgress := db.moduleProgress ++
          [updatedModuleProgress (newModuleProgress u mid M.total_lessons env.now)
            1 M.total_lessons env.now]
        xpTransactions := db.xpTransactions ++ TXS
        users := US } rowF u lid u' l' rfl hru hrl hrc hf
    rw [hci]
    by_cases hp : (u = u' ∧ lid = l')
    · simp [hp]
    · rw [if_neg hp]
      apply hI.txCompleted u' l'
      rcases htx with h0 | ⟨amt, h1⟩
      · subst h0
        have hsame : (db.xpTransactions ++ ([] : List XPTransaction)) = db.xpTransactions := by
          simp
        unfold txCount at hpos ⊢
        rw [hsame] at hpos
        exact hpos
      · subst h1
        have hsh := txCount_shape db
          { db with
            lessonProgress := db.lessonProgress ++ [rowF]
            moduleProgress := db.moduleProgress ++
              [updatedModuleProgress (newModuleProgress u mid M.total_lessons env.now)
                1 M.total_lessons env.now]
            xpTransactions := db.xpTransactions ++ [newXPTransaction u mid lid lesson amt]
            users := US }
          (newXPTransaction u mid lid lesson amt) u' l' rfl
        rw [hsh] at hpos
        have hb : ((newXPTransaction u mid lid lesson amt).user_id == u' &&
            (newXPTransaction u mid lid lesson amt).meta_lesson_id == l') = false := by
          simp only [newXPTransaction]
          simp only [Bool.and_eq_false_iff, beq_eq_false_iff_ne, ne_eq]
          by_cases h1 : u = u'
          · right
            intro h2
            exact hp ⟨h1, h2⟩
          · left
            exact h1
        rw [hb] at hpos
        simpa using hpos

end Phase1
namespace Phase1

/-- Control-flow equation: a fresh pair enters the completion body with a
newly inserted row. -/
theorem internal_fresh (env : Env) (db : DB) (u mid lid : Nat)
    (d : CompletionData) (lesson : Lesson)
    (hL : lessonOf db lid = some lesson) (hm : lesson.module_id = mid)
    (hf : findLP db u lid = none) :
    completeLessonInternal env db u mid lid d =
      runBody env db (addLP db (newLessonProgress u lid)) lesson
        (newLessonProgress u lid) u mid lid d := by
  unfold completeLessonInternal
  rw [hL]
  simp [hm, hf]

/-- Control-flow equation: an existing not-yet-completed pair enters the
completion body with its row. -/
theorem internal_incomplete (env : Env) (db : DB) (u mid lid : Nat)
    (d : CompletionData) (lesson : Lesson) (row : UserLessonProgress)
    (hL : lessonOf db lid = some lesson) (hm : lesson.module_id = mid)
    (hr : findLP db u lid = some row) (hrc : row.is_completed = false) :
    completeLessonInternal env db u mid lid d =
      runBody env db db lesson row u mid lid d := by
  unfold completeLessonInternal
  rw [hL]
  simp [hm, hr, hrc]

/-- Rollback: an unknown lesson id leaves the store untouched. -/
theorem completeLesson_state_of_noLesson (env : Env) (db : DB)
    (u mid lid : Nat) (d : CompletionData) (hL : lessonOf db lid = none) :
    (completeLesson env db u mid lid d).1 = db := by
  unfold completeLesson completeLessonInternal
  rw [hL]

/-- Rollback: a lesson that is not under the requested module leaves the
store untouched. -/
theorem completeLesson_state_of_badModule (env : Env) (db : DB)
    (u mid lid : Nat) (d : CompletionData) (lesson : Lesson)
    (hL : lessonOf db lid = some lesson) (hm : lesson.module_id ≠ mid) :
    (completeLesson env db u mid lid d).1 = db := by
  unfold completeLesson completeLessonInternal
  rw [hL]
  simp [hm]

/-- The aggregate stage raises NotFound when the module row is absent. -/
theorem updateModuleProgressStage_noModule (env : Env) (db : DB)
    (u mid : Nat) (already : Bool) (hM : moduleOf db mid = none) :
    updateModuleProgressStage env db u mid already =
      .error (.notFound "Module not found") := by
  unfold updateModuleProgressStage
  cases hmp : findMP db u mid <;> simp [hmp, hM]

/-- The completion body raises NotFound when the module row is absent. -/
theorem runBody_noModule (env : Env) (db0 db : DB) (lesson : Lesson)
    (row : UserLessonProgress) (u mid lid : Nat) (d : CompletionData)
    (hM : moduleOf db mid = none) :
    runBody env db0 db lesson row u mid lid d =
      .error (.notFound "Module not found") := by
  unfold runBody
  have h := updateModuleProgressStage_noModule env
    (updateLP db u lid (markCompleted row d env.now)) u mid false hM
  simp only [h]

/-- Rollback: an absent module leaves the store untouched when the pair is
not already completed. -/
theorem completeLesson_state_of_noModule (env : Env) (db : DB)
    (u mid lid : Nat) (d : CompletionData) (lesson : Lesson)
    (hL : lessonOf db lid = some lesson) (hm : lesson.module_id = mid)
    (hM : moduleOf db mid = none)
    (hnc : completedIn db u lid = false) :
    (completeLesson env db u mid lid d).1 = db := by
  unfold completeLesson
  cases hr : findLP db u lid with
  | none =>
    rw [internal_fresh env db u mid lid d lesson hL hm hr,
      runBody_noModule env db (addLP db (newLessonProgress u lid)) lesson
        (newLessonProgress u lid) u mid lid d hM]
  | some row =>
    have hrc : row.is_completed = false := by
      unfold completedIn at hnc
      rw [hr] at hnc
      exact hnc
    rw [internal_incomplete env db u mid lid d lesson row hL hm hr hrc,
      runBody_noModule env db db lesson row u mid lid d hM]

end Phase1
namespace Phase1

/-- Route-level state after a first completion with an existing aggregate
row. -/
theorem completeLesson_state_fresh_existingMP (env : Env) (db : DB)
    (u mid lid : Nat) (d : CompletionData) (lesson : Lesson)
    (mp0 : UserModuleProgress) (M : Module)
    (hL : lessonOf db lid = some lesson) (hm : lesson.module_id = mid)
    (hf : findLP db u lid = none) (hmp : findMP db u mid = some mp0)
    (hM : moduleOf db mid = some M) (hce : env.commitError = none) :
    (completeLesson env db u mid lid d).1 =
      (if 0 < resolveCreditedXp d.xp_earned lesson.xp_reward then
        { db with
          lessonProgress := db.lessonProgress ++
            [{ markCompleted (newLessonProgress u lid) d env.now with
               xp_earned := resolveCreditedXp d.xp_earned lesson.xp_reward }]
          moduleProgress := db.moduleProgress.map fun x =>
            if x.user_id == u && x.module_id == mid then
              updatedModuleProgress mp0 (orZero mp0.completed_lessons + 1)
                M.total_lessons env.now
            else x
          xpTransactions := db.xpTransactions ++
            [newXPTransaction u mid lid lesson
              (resolveCreditedXp d.xp_earned lesson.xp_reward)]
          users := db.users.map fun x =>
            if x.id == u then
              { x with total_xp := x.total_xp +
                  resolveCreditedXp d.xp_earned lesson.xp_reward }
            else x }
      else
        { db with
          lessonProgress := db.lessonProgress ++
            [markCompleted (newLessonProgress u lid) d env.now]
          moduleProgress := db.moduleProgress.map fun x =>
            if x.user_id == u && x.module_id == mid then
              updatedModuleProgress mp0 (orZero mp0.completed_lessons + 1)
                M.total_lessons env.now
            else x }) := by
  unfold completeLesson
  rw [internal_fresh env db u mid lid d lesson hL hm hf,
    runBody_fresh_existingMP env db lesson u mid lid d mp0 M hf hmp hM hce]
  by_cases hcr : 0 < resolveCreditedXp d.xp_earned lesson.xp_reward <;>
    simp [hcr]

/-- Route-level state after a first completion that creates the aggregate
row. -/
theorem completeLesson_state_fresh_createMP (env : Env) (db : DB)
    (u mid lid : Nat) (d : CompletionData) (lesson : Lesson) (M : Module)
    (hL : lessonOf db lid = some lesson) (hm : lesson.module_id = mid)
    (hf : findLP db u lid = none) (hmp : findMP db u mid = none)
    (hM : moduleOf db mid = some M) (hce : env.commitError = none) :
    (completeLesson env db u mid lid d).1 =
      (if 0 < resolveCreditedXp d.xp_earned lesson.xp_reward then
        { db with
          lessonProgress := db.lessonProgress ++
            [{ markCompleted (newLessonProgress u lid) d env.now with
               xp_earned := resolveCreditedXp d.xp_earned lesson.xp_reward }]
          moduleProgress := db.moduleProgress ++
            [updatedModuleProgress (newModuleProgress u mid M.total_lessons env.now)
              1 M.total_lessons env.now]
          xpTransactions := db.xpTransactions ++
            [newXPTransaction u mid lid lesson
              (resolveCreditedXp d.xp_earned lesson.xp_reward)]
          users := db.users.map fun x =>
            if x.id == u then
              { x with total_xp := x.total_xp +
                  resolveCreditedXp d.xp_earned lesson.xp_reward }
            else x }
      else
        { db with
          lessonProgress := db.lessonProgress ++
            [markCompleted (newLessonProgress u lid) d env.now]
          moduleProgress := db.moduleProgress ++
            [updatedModuleProgress (newModuleProgress u mid M.total_lessons env.now)
              1 M.total_lessons env.now] }) := by
  unfold completeLesson
  rw [internal_fresh env db u mid lid d lesson hL hm hf,
    runBody_fresh_createMP env db lesson u mid lid d M hf hmp hM hce]
  by_cases hcr : 0 < resolveCreditedXp d.xp_earned lesson.xp_reward <;>
    simp [hcr]

/-- One route call preserves the reachable-state invariant. -/
theorem inv_step (db : DB) (hI : Inv db) (c : Call) : Inv (execCall db c) := by
  unfold execCall
  cases hce : c.env.commitError with
  | some msg =>
    rw [completeLesson_state_of_commitError c.env db c.user_id c.module_id
      c.lesson_id c.data msg hce]
    exact hI
  | none =>
    cases hL : lessonOf db c.lesson_id with
    | none =>
      rw [completeLesson_state_of_noLesson c.env db c.user_id c.module_id
        c.lesson_id c.data hL]
      exact hI
    | some lesson =>
      by_cases hm : lesson.module_id = c.module_id
      · cases hr : findLP db c.user_id c.lesson_id with
        | some row =>
          have hrL : db.lessonProgress.find?
              (fun r => r.user_id == c.user_id && r.lesson_id == c.lesson_id) =
                some row := hr
          have hcomp := hI.lpCompleted row (List.mem_of_find?_eq_some hrL)
          have hdone : completedIn db c.user_id c.lesson_id = true := by
            unfold completedIn
            rw [hr]
            exact hcomp
          rw [completeLesson_state_of_completed c.env db c.user_id c.module_id
            c.lesson_id c.data hdone]
          exact hI
        | none =>
          cases hM : moduleOf db c.module_id with
          | none =>
            have hnc : completedIn db c.user_id c.lesson_id = false := by
              unfold completedIn
              rw [hr]
            rw [completeLesson_state_of_noModule c.env db c.user_id c.module_id
              c.lesson_id c.data lesson hL hm hM hnc]
            exact hI
          | some M =>
            cases hmp : findMP db c.user_id c.module_id with
            | some mp0 =>
              rw [completeLesson_state_fresh_existingMP c.env db c.user_id
                c.module_id c.lesson_id c.data lesson mp0 M hL hm hr hmp hM hce]
              by_cases hcr : 0 < resolveCreditedXp c.data.xp_earned lesson.xp_reward
              · rw [if_pos hcr]
                exact inv_shape_existing db hI c.env c.user_id c.module_id
                  c.lesson_id lesson _ mp0 M _ _ hL hm hr hmp hM
                  (by simp [markCompleted, newLessonProgress])
                  (by simp [markCompleted, newLessonProgress])
                  (by simp [markCompleted, newLessonProgress])
                  (.inr ⟨_, rfl⟩)
              · rw [if_neg hcr]
                have hrec : ({ db with
                    lessonProgress := db.lessonProgress ++
                      [markCompleted (newLessonProgress c.user_id c.lesson_id)
                        c.data c.env.now]
                    moduleProgress := db.moduleProgress.map fun x =>
                      if x.user_id == c.user_id && x.module_id == c.module_id then
                        updatedModuleProgress mp0 (orZero mp0.completed_lessons + 1)
                          M.total_lessons c.env.now
                      else x } : DB) =
                  { db with
                    lessonProgress := db.lessonProgress ++
                      [markCompleted (newLessonProgress c.user_id c.lesson_id)
                        c.data c.env.now]
                    moduleProgress := db.moduleProgress.map fun x =>
                      if x.user_id == c.user_id && x.module_id == c.module_id then
                        updatedModuleProgress mp0 (orZero mp0.completed_lessons + 1)
                          M.total_lessons c.env.now
                      else x
                    xpTransactions := db.xpTransactions ++ []
                    users := db.users } := by
                  simp
                rw [hrec]
                exact inv_shape_existing db hI c.env c.user_id c.module_id
                  c.lesson_id lesson _ mp0 M [] db.users hL hm hr hmp hM
                  (by simp [markCompleted, newLessonProgress])
                  (by simp [markCompleted, newLessonProgress])
                  (by simp [markCompleted, newLessonProgress])
                  (.inl rfl)
            | none =>
              rw [completeLesson_state_fresh_createMP c.env db c.user_id
                c.module_id c.lesson_id c.data lesson M hL hm hr hmp hM hce]
              by_cases hcr : 0 < resolveCreditedXp c.data.xp_earned lesson.xp_reward
              · rw [if_pos hcr]
                exact inv_shape_create db hI c.env c.user_id c.module_id
                  c.lesson_id lesson _ M _ _ hL hm hr hmp hM
                  (by simp [markCompleted, newLessonProgress])
                  (by simp [markCompleted, newLessonProgress])
                  (by simp [markCompleted, newLessonProgress])
                  (.inr ⟨_, rfl⟩)
              · rw [if_neg hcr]
                have hrec : ({ db with
                    lessonProgress := db.lessonProgress ++
                      [markCompleted (newLessonProgress c.user_id c.lesson_id)
                        c.data c.env.now]
                    moduleProgress := db.moduleProgress ++
                      [updatedModuleProgress
                        (newModuleProgress c.user_id c.module_id
                          M.total_lessons c.env.now)
                        1 M.total_lessons c.env.now] } : DB) =
                  { db with
                    lessonProgress := db.lessonProgress ++
                      [markCompleted (newLessonProgress c.user_id c.lesson_id)
                        c.data c.env.now]
                    moduleProgress := db.moduleProgress ++
                      [updatedModuleProgress
                        (newModuleProgress c.user_id c.module_id
                          M.total_lessons c.env.now)
                        1 M.total_lessons c.env.now]
                    xpTransactions := db.xpTransactions ++ []
                    users := db.users } := by
                  simp
                rw [hrec]
                exact inv_shape_create db hI c.env c.user_id c.module_id
                  c.lesson_id lesson _ M [] db.users hL hm hr hmp hM
                  (by simp [markCompleted, newLessonProgress])
                  (by simp [markCompleted, newLessonProgress])
                  (by simp [markCompleted, newLessonProgress])
                  (.inl rfl)
      · rw [completeLesson_state_of_badModule c.env db c.user_id c.module_id
          c.lesson_id c.data lesson hL hm]
        exact hI

/-- The invariant holds in every state reachable from a fresh deployment. -/
theorem inv_trace (db : DB) (hI : Inv db) (tr : List Call) :
    Inv (execTrace db tr) := by
  induction tr generalizing db with
  | nil => exact hI
  | cons c rest ih => exact ih (execCall db c) (inv_step db hI c)

end Phase1
namespace Phase1

/-- Distinct (user, lesson) keys with a fixed user give distinct lesson
ids. -/
theorem nodup_lessonIds_of_nodup_keys (F : List UserLessonProgress) (u : Nat)
    (hu : ∀ r ∈ F, r.user_id = u)
    (h : (F.map fun r => (r.user_id, r.lesson_id)).Nodup) :
    (F.map fun r => r.lesson_id).Nodup := by
  induction F with
  | nil => simp
  | cons r t ih =>
    simp only [List.map_cons, List.nodup_cons] at h ⊢
    refine ⟨?_, ih (fun x hx => hu x (List.mem_cons_of_mem r hx)) h.2⟩
    intro hmem
    rcases List.mem_map.mp hmem with ⟨r2, hr2, he⟩
    apply h.1
    refine List.mem_map.mpr ⟨r2, hr2, ?_⟩
    have h1 : r2.user_id = u := hu r2 (List.mem_cons_of_mem r hr2)
    have h2 : r.user_id = u := hu r (List.mem_cons_self r t)
    rw [h1, h2, he]

/-- The per-module completed count never exceeds the number of catalog
lessons in the module. -/
theorem count_le_total (db : DB) (hI : Inv db) (u mid : Nat) :
    moduleCompletedCount db u mid ≤
      (db.lessons.filter fun l => l.module_id == mid).length := by
  unfold moduleCompletedCount completedCountAux
  set p : UserLessonProgress → Bool := fun r =>
    r.user_id == u && r.is_completed &&
      (match db.lessons.find? (fun l => l.id == r.lesson_id) with
       | some l => l.module_id == mid
       | none => false) with hp
  have hsub : List.Sublist (db.lessonProgress.filter p) db.lessonProgress :=
    List.filter_sublist _
  have hkeysF : ((db.lessonProgress.filter p).map
      fun r => (r.user_id, r.lesson_id)).Nodup :=
    (hsub.map _).nodup hI.lpKeys
  have huF : ∀ r ∈ db.lessonProgress.filter p, r.user_id = u := by
    intro r hr
    have := (List.mem_filter.mp hr).2
    rw [hp] at this
    simp only [Bool.and_eq_true, beq_iff_eq] at this
    exact this.1.1
  have hids : ((db.lessonProgress.filter p).map fun r => r.lesson_id).Nodup :=
    nodup_lessonIds_of_nodup_keys _ u huF hkeysF
  have hsubset : ((db.lessonProgress.filter p).map fun r => r.lesson_id) ⊆
      ((db.lessons.filter fun l => l.module_id == mid).map fun l => l.id) := by
    intro i hi
    rcases List.mem_map.mp hi with ⟨r, hr, he⟩
    have hpr := (List.mem_filter.mp hr).2
    rw [hp] at hpr
    simp only [Bool.and_eq_true] at hpr
    rcases hfind : db.lessons.find? (fun l => l.id == r.lesson_id) with _ | l
    · rw [hfind] at hpr
      simp at hpr
    · rw [hfind] at hpr
      have hmem : l ∈ db.lessons := List.mem_of_find?_eq_some hfind
      have hid : (l.id == r.lesson_id) = true :=
        List.find?_some (p := fun (l : Lesson) => l.id == r.lesson_id) hfind
      refine List.mem_map.mpr ⟨l, List.mem_filter.mpr ⟨hmem, hpr.2⟩, ?_⟩
      rw [← he]
      simpa using hid.symm
  have hlen := (List.subperm_of_subset hids hsubset).length_le
  calc (db.lessonProgress.filter p).length
      = ((db.lessonProgress.filter p).map fun r => r.lesson_id).length :=
        (List.length_map _ _).symm
    _ ≤ ((db.lessons.filter fun l => l.module_id == mid).map fun l => l.id).length :=
        hlen
    _ = (db.lessons.filter fun l => l.module_id == mid).length :=
        List.length_map _ _

end Phase1
namespace Phase1

/-- Appending one call to a trace runs it on the trace's final state. -/
theorem execTrace_snoc (init : DB) (tr : List Call) (c : Call) :
    execTrace init (tr ++ [c]) = execCall (execTrace init tr) c := by
  unfold execTrace
  rw [List.foldl_append]
  rfl

/-- Searching commutes with mapping a function that preserves the
predicate. -/
theorem find?_map_of_pred_comm {α : Type} (g : α → α) (q : α → Bool)
    (h : ∀ x, q (g x) = q x) (l : List α) :
    (l.map g).find? q = (l.find? q).map g := by
  induction l with
  | nil => rfl
  | cons x t ih =>
    by_cases hx : q x = true
    · rw [List.map_cons, List.find?_cons_of_pos _ ((h x).trans hx),
        List.find?_cons_of_pos _ hx]
      rfl
    · have hx2 : ¬ q (g x) = true := by
        rw [h x]
        exact hx
      rw [List.map_cons, List.find?_cons_of_neg _ hx2,
        List.find?_cons_of_neg _ hx, ih]

/-- The atomic XP increment leaves every other user's total alone, stated
for any store holding the incremented user table. -/
theorem userTotalXp_other (db db2 : DB) (cu u' : Nat) (amt : Int)
    (hshape : db2.users = db.users.map fun x =>
      if x.id == cu then { x with total_xp := x.total_xp + amt } else x)
    (hne : u' ≠ cu) :
    userTotalXp db2 u' = userTotalXp db u' := by
  unfold userTotalXp
  rw [hshape]
  have hcomm : ∀ x : User,
      ((if x.id == cu then { x with total_xp := x.total_xp + amt } else x).id == u') =
        (x.id == u') := by
    intro x
    by_cases hx : x.id = cu <;> simp [hx]
  have he := find?_map_of_pred_comm
    (fun x : User => if x.id == cu then { x with total_xp := x.total_xp + amt } else x)
    (fun x : User => x.id == u') hcomm db.users
  rw [he]
  cases hfx : db.users.find? (fun x => x.id == u') with
  | none => rfl
  | some x =>
    have hid : (x.id == u') = true :=
      List.find?_some (p := fun (y : User) => y.id == u') hfx
    have hxcu : x.id ≠ cu := by
      simp only [beq_iff_eq] at hid
      rw [hid]
      exact hne
    simp [hxcu]

/-- An untouched users table keeps every total. -/
theorem userTotalXp_same (db db2 : DB) (u' : Nat)
    (hshape : db2.users = db.users) :
    userTotalXp db2 u' = userTotalXp db u' := by
  unfold userTotalXp
  rw [hshape]

end Phase1
namespace Phase1

/-- Ledger and XP-total accounting for the credited first-completion state:
exactly the call pair gains its single transaction, and only the calling
user's total moves. -/
theorem step_shape_pos (db : DB) (hI : Inv db) (u0 mid0 lid0 : Nat)
    (lesson : Lesson) (rowF : UserLessonProgress)
    (MPL : List UserModuleProgress) (credited : Int) (db2 : DB)
    (hdb2 : db2 = { db with
      lessonProgress := db.lessonProgress ++ [rowF]
      moduleProgress := MPL
      xpTransactions := db.xpTransactions ++
        [newXPTransaction u0 mid0 lid0 lesson credited]
      users := db.users.map fun x =>
        if x.id == u0 then { x with total_xp := x.total_xp + credited } else x })
    (hr : findLP db u0 lid0 = none)
    (hru : rowF.user_id = u0) (hrl : rowF.lesson_id = lid0)
    (hrc : rowF.is_completed = true) :
    (∀ u lid, txCount db2 u lid = txCount db u lid ∨
       (txCount db u lid = 0 ∧ txCount db2 u lid = 1 ∧ u = u0 ∧ lid = lid0 ∧
        completedIn db u lid = false ∧ completedIn db2 u lid = true)) ∧
    (∀ u, userTotalXp db2 u ≠ userTotalXp db u →
       u = u0 ∧ completedIn db u0 lid0 = false ∧
       completedIn db2 u0 lid0 = true) := by
  have hnotdone : completedIn db u0 lid0 = false := by
    unfold completedIn
    rw [hr]
  have htx0 : txCount db u0 lid0 = 0 := by
    by_contra hne
    have h := hI.txCompleted u0 lid0 (Nat.pos_of_ne_zero hne)
    rw [hnotdone] at h
    exact Bool.false_ne_true h
  have hlpshape : db2.lessonProgress = db.lessonProgress ++ [rowF] := by
    rw [hdb2]
  have hci := fun u' lid' => completedIn_shape db db2 rowF u0 lid0 u' lid'
    hlpshape hru hrl hrc hr
  have hdone2 : completedIn db2 u0 lid0 = true := by
    rw [hci u0 lid0]
    simp
  constructor
  · intro u lid
    have hsh := txCount_shape db db2
      (newXPTransaction u0 mid0 lid0 lesson credited) u lid (by rw [hdb2])
    by_cases hp : (u0 = u ∧ lid0 = lid)
    · right
      obtain ⟨h1, h2⟩ := hp
      subst h1
      subst h2
      have hb : ((newXPTransaction u0 mid0 lid0 lesson credited).user_id == u0 &&
          (newXPTransaction u0 mid0 lid0 lesson credited).meta_lesson_id == lid0) =
            true := by
        simp [newXPTransaction]
      rw [hsh, hb, htx0]
      exact ⟨rfl, by simp, rfl, rfl, hnotdone, hdone2⟩
    · left
      have hb : ((newXPTransaction u0 mid0 lid0 lesson credited).user_id == u &&
          (newXPTransaction u0 mid0 lid0 lesson credited).meta_lesson_id == lid) =
            false := by
        simp only [newXPTransaction]
        simp only [Bool.and_eq_false_iff, beq_eq_false_iff_ne, ne_eq]
        by_cases h1 : u0 = u
        · right
          intro h2
          exact hp ⟨h1, h2⟩
        · left
          exact h1
      rw [hsh, hb]
      simp
  · intro u hne
    by_cases hu : u = u0
    · subst hu
      exact ⟨rfl, hnotdone, hdone2⟩
    · exfalso
      apply hne
      exact userTotalXp_other db db2 u0 u credited (by rw [hdb2]) hu

/-- Ledger and XP-total accounting for the uncredited first-completion
state: nothing in the ledger or the user totals moves. -/
theorem step_shape_zero (db : DB)
    (rowF : UserLessonProgress) (MPL : List UserModuleProgress) (db2 : DB)
    (hdb2 : db2 = { db with
      lessonProgress := db.lessonProgress ++ [rowF]
      moduleProgress := MPL })
    :
    (∀ u lid, txCount db2 u lid = txCount db u lid) ∧
    (∀ u, userTotalXp db2 u = userTotalXp db u) := by
  constructor
  · intro u lid
    exact txCount_shape_same db db2 u lid (by rw [hdb2])
  · intro u
    exact userTotalXp_same db db2 u (by rw [hdb2])

end Phase1
namespace Phase1

/-- One route call against an invariant-satisfying store either leaves each
ledger bucket and user total alone, or performs the single crediting
transition of its own (user, lesson) pair. -/
theorem step_txxp (db : DB) (hI : Inv db) (c : Call) :
    (∀ u lid, txCount (execCall db c) u lid = txCount db u lid ∨
       (txCount db u lid = 0 ∧ txCount (execCall db c) u lid = 1 ∧
        u = c.user_id ∧ lid = c.lesson_id ∧
        completedIn db u lid = false ∧
        completedIn (execCall db c) u lid = true)) ∧
    (∀ u, userTotalXp (execCall db c) u ≠ userTotalXp db u →
       u = c.user_id ∧ completedIn db c.user_id c.lesson_id = false ∧
       completedIn (execCall db c) c.user_id c.lesson_id = true) := by
  have hfresh_pos : ∀ (lesson : Lesson) (mpl : List UserModuleProgress)
      (credited : Int),
      findLP db c.user_id c.lesson_id = none →
      execCall db c = { db with
        lessonProgress := db.lessonProgress ++
          [{ markCompleted (newLessonProgress c.user_id c.lesson_id)
              c.data c.env.now with xp_earned := credited }]
        moduleProgress := mpl
        xpTransactions := db.xpTransactions ++
          [newXPTransaction c.user_id c.module_id c.lesson_id lesson credited]
        users := db.users.map fun x =>
          if x.id == c.user_id then
            { x with total_xp := x.total_xp + credited } else x } →
     (∀ u lid, txCount (execCall db c) u lid = txCount db u lid ∨
       (txCount db u lid = 0 ∧ txCount (execCall db c) u lid = 1 ∧
        u = c.user_id ∧ lid = c.lesson_id ∧
        completedIn db u lid = false ∧
        completedIn (execCall db c) u lid = true)) ∧
     (∀ u, userTotalXp (execCall db c) u ≠ userTotalXp db u →
       u = c.user_id ∧ completedIn db c.user_id c.lesson_id = false ∧
       completedIn (execCall db c) c.user_id c.lesson_id = true) := by
    intro lesson mpl credited hr hstate
    have := step_shape_pos db hI c.user_id c.module_id c.lesson_id lesson
      ({ markCompleted (newLessonProgress c.user_id c.lesson_id)
          c.data c.env.now with xp_earned := credited })
      mpl credited (execCall db c) hstate hr
      (by simp [markCompleted, newLessonProgress])
      (by simp [markCompleted, newLessonProgress]) rfl
    exact this
  have hfresh_zero : ∀ (rowF : UserLessonProgress)
      (mpl : List UserModuleProgress),
      execCall db c = { db with
        lessonProgress := db.lessonProgress ++ [rowF]
        moduleProgress := mpl } →
     (∀ u lid, txCount (execCall db c) u lid = txCount db u lid ∨
       (txCount db u lid = 0 ∧ txCount (execCall db c) u lid = 1 ∧
        u = c.user_id ∧ lid = c.lesson_id ∧
        completedIn db u lid = false ∧
        completedIn (execCall db c) u lid = true)) ∧
     (∀ u, userTotalXp (execCall db c) u ≠ userTotalXp db u →
       u = c.user_id ∧ completedIn db c.user_id c.lesson_id = false ∧
       completedIn (execCall db c) c.user_id c.lesson_id = true) := by
    intro rowF mpl hstate
    have hz := step_shape_zero db rowF mpl (execCall db c) hstate
    exact ⟨fun u lid => .inl (hz.1 u lid),
      fun u hne => absurd (hz.2 u) hne⟩
  have hnoop : execCall db c = db →
     (∀ u lid, txCount (execCall db c) u lid = txCount db u lid ∨
       (txCount db u lid = 0 ∧ txCount (execCall db c) u lid = 1 ∧
        u = c.user_id ∧ lid = c.lesson_id ∧
        completedIn db u lid = false ∧
        completedIn (execCall db c) u lid = true)) ∧
     (∀ u, userTotalXp (execCall db c) u ≠ userTotalXp db u →
       u = c.user_id ∧ completedIn db c.user_id c.lesson_id = false ∧
       completedIn (execCall db c) c.user_id c.lesson_id = true) := by
    intro h
    rw [h]
    exact ⟨fun u lid => .inl rfl, fun u hne => absurd rfl hne⟩
  cases hce : c.env.commitError with
  | some msg =>
    exact hnoop (completeLesson_state_of_commitError c.env db c.user_id
      c.module_id c.lesson_id c.data msg hce)
  | none =>
    cases hL : lessonOf db c.lesson_id with
    | none =>
      exact hnoop (completeLesson_state_of_noLesson c.env db c.user_id
        c.module_id c.lesson_id c.data hL)
    | some lesson =>
      by_cases hm : lesson.module_id = c.module_id
      · cases hr : findLP db c.user_id c.lesson_id with
        | some row =>
          have hrL : db.lessonProgress.find?
              (fun r => r.user_id == c.user_id && r.lesson_id == c.lesson_id) =
                some row := hr
          have hcomp := hI.lpCompleted row (List.mem_of_find?_eq_some hrL)
          have hdone : completedIn db c.user_id c.lesson_id = true := by
            unfold completedIn
            rw [hr]
            exact hcomp
          exact hnoop (completeLesson_state_of_completed c.env db c.user_id
            c.module_id c.lesson_id c.data hdone)
        | none =>
          cases hM : moduleOf db c.module_id with
          | none =>
            have hnc : completedIn db c.user_id c.lesson_id = false := by
              unfold completedIn
              rw [hr]
            exact hnoop (completeLesson_state_of_noModule c.env db c.user_id
              c.module_id c.lesson_id c.data lesson hL hm hM hnc)
          | some M =>
            cases hmp : findMP db c.user_id c.module_id with
            | some mp0 =>
              have hstate := completeLesson_state_fresh_existingMP c.env db
                c.user_id c.module_id c.lesson_id c.data lesson mp0 M
                hL hm hr hmp hM hce
              by_cases hcr : 0 < resolveCreditedXp c.data.xp_earned lesson.xp_reward
              · rw [if_pos hcr] at hstate
                exact hfresh_pos lesson _ _ hr hstate
              · rw [if_neg hcr] at hstate
                exact hfresh_zero _ _ hstate
            | none =>
              have hstate := completeLesson_state_fresh_createMP c.env db
                c.user_id c.module_id c.lesson_id c.data lesson M
                hL hm hr hmp hM hce
              by_cases hcr : 0 < resolveCreditedXp c.data.xp_earned lesson.xp_reward
              · rw [if_pos hcr] at hstate
                exact hfresh_pos lesson _ _ hr hstate
              · rw [if_neg hcr] at hstate
                exact hfresh_zero _ _ hstate
      · exact hnoop (completeLesson_state_of_badModule c.env db c.user_id
          c.module_id c.lesson_id c.data lesson hL hm)

end Phase1
namespace Phase1

/-- C1: For every (user_id, lesson_id) pair, XP is credited at most once.
Along any trace of CompleteLesson calls from a fresh deployment, each pair
owns at most one XPTransaction row; a call that adds a transaction for a pair
or moves a user's total_xp is exactly the call that transitions that pair's
LessonProgress from not-completed to completed; and a call on an
already-completed pair changes nothing at all. -/
theorem C1_xp_credited_at_most_once (init : DB) (hinit : InitState init)
    (tr : List Call) (c : Call) :
    (∀ u lid, txCount (execTrace init (tr ++ [c])) u lid ≤ 1) ∧
    (∀ u lid,
      txCount (execTrace init tr) u lid <
          txCount (execTrace init (tr ++ [c])) u lid →
        u = c.user_id ∧ lid = c.lesson_id ∧
        completedIn (execTrace init tr) u lid = false ∧
        completedIn (execTrace init (tr ++ [c])) u lid = true) ∧
    (∀ u,
      userTotalXp (execTrace init (tr ++ [c])) u ≠
          userTotalXp (execTrace init tr) u →
        u = c.user_id ∧
        completedIn (execTrace init tr) c.user_id c.lesson_id = false ∧
        completedIn (execTrace init (tr ++ [c])) c.user_id c.lesson_id = true) ∧
    (completedIn (execTrace init tr) c.user_id c.lesson_id = true →
      execTrace init (tr ++ [c]) = execTrace init tr) := by
  have hI := inv_trace init (inv_init init hinit) tr
  have hI2 := inv_trace init (inv_init init hinit) (tr ++ [c])
  have hsnoc := execTrace_snoc init tr c
  have hstep := step_txxp (execTrace init tr) hI c
  refine ⟨?_, ?_, ?_, ?_⟩
  · intro u lid
    exact hI2.txBound u lid
  · intro u lid hlt
    rw [hsnoc] at hlt ⊢
    rcases hstep.1 u lid with he | hcase
    · rw [he] at hlt
      exact absurd hlt (lt_irrefl _)
    · exact ⟨hcase.2.2.1, hcase.2.2.2.1, hcase.2.2.2.2.1, hcase.2.2.2.2.2⟩
  · intro u hne
    rw [hsnoc] at hne ⊢
    exact hstep.2 u hne
  · intro hdone
    rw [hsnoc]
    exact completeLesson_state_of_completed c.env (execTrace init tr)
      c.user_id c.module_id c.lesson_id c.data hdone

/-- Witness for C1 at a concrete one-lesson deployment and a single call. -/
theorem C1_xp_credited_at_most_once_witness :
    InitState ⟨[⟨5, 2, 1, "Intro", some 20⟩], [⟨2, 1, 1⟩], [], [], [], [⟨1, 0⟩]⟩ ∧
    ((∀ u lid, txCount (execTrace
        ⟨[⟨5, 2, 1, "Intro", some 20⟩], [⟨2, 1, 1⟩], [], [], [], [⟨1, 0⟩]⟩
        ([] ++ [⟨⟨42, none, fun _ => false⟩, 1, 2, 5, ⟨none, none, none⟩⟩]))
        u lid ≤ 1) ∧
     (∀ u lid,
       txCount (execTrace
          ⟨[⟨5, 2, 1, "Intro", some 20⟩], [⟨2, 1, 1⟩], [], [], [], [⟨1, 0⟩]⟩ []) u lid <
           txCount (execTrace
          ⟨[⟨5, 2, 1, "Intro", some 20⟩], [⟨2, 1, 1⟩], [], [], [], [⟨1, 0⟩]⟩
          ([] ++ [⟨⟨42, none, fun _ => false⟩, 1, 2, 5, ⟨none, none, none⟩⟩])) u lid →
         u = 1 ∧ lid = 5 ∧
         completedIn (execTrace
          ⟨[⟨5, 2, 1, "Intro", some 20⟩], [⟨2, 1, 1⟩], [], [], [], [⟨1, 0⟩]⟩ []) u lid = false ∧
         completedIn (execTrace
          ⟨[⟨5, 2, 1, "Intro", some 20⟩], [⟨2, 1, 1⟩], [], [], [], [⟨1, 0⟩]⟩
          ([] ++ [⟨⟨42, none, fun _ => false⟩, 1, 2, 5, ⟨none, none, none⟩⟩])) u lid = true) ∧
     (∀ u,
       userTotalXp (execTrace
          ⟨[⟨5, 2, 1, "Intro", some 20⟩], [⟨2, 1, 1⟩], [], [], [], [⟨1, 0⟩]⟩
          ([] ++ [⟨⟨42, none, fun _ => false⟩, 1, 2, 5, ⟨none, none, none⟩⟩])) u ≠
           userTotalXp (execTrace
          ⟨[⟨5, 2, 1, "Intro", some 20⟩], [⟨2, 1, 1⟩], [], [], [], [⟨1, 0⟩]⟩ []) u →
         u = 1 ∧
         completedIn (execTrace
          ⟨[⟨5, 2, 1, "Intro", some 20⟩], [⟨2, 1, 1⟩], [], [], [], [⟨1, 0⟩]⟩ []) 1 5 = false ∧
         completedIn (execTrace
          ⟨[⟨5, 2, 1, "Intro", some 20⟩], [⟨2, 1, 1⟩], [], [], [], [⟨1, 0⟩]⟩
          ([] ++ [⟨⟨42, none, fun _ => false⟩, 1, 2, 5, ⟨none, none, none⟩⟩])) 1 5 = true) ∧
     (completedIn (execTrace
          ⟨[⟨5, 2, 1, "Intro", some 20⟩], [⟨2, 1, 1⟩], [], [], [], [⟨1, 0⟩]⟩ []) 1 5 = true →
       execTrace
          ⟨[⟨5, 2, 1, "Intro", some 20⟩], [⟨2, 1, 1⟩], [], [], [], [⟨1, 0⟩]⟩
          ([] ++ [⟨⟨42, none, fun _ => false⟩, 1, 2, 5, ⟨none, none, none⟩⟩]) =
         execTrace
          ⟨[⟨5, 2, 1, "Intro", some 20⟩], [⟨2, 1, 1⟩], [], [], [], [⟨1, 0⟩]⟩ [])) :=
  ⟨⟨rfl, rfl, rfl, by decide⟩,
    C1_xp_credited_at_most_once
      ⟨[⟨5, 2, 1, "Intro", some 20⟩], [⟨2, 1, 1⟩], [], [], [], [⟨1, 0⟩]⟩
      ⟨rfl, rfl, rfl, by decide⟩ []
      ⟨⟨42, none, fun _ => false⟩, 1, 2, 5, ⟨none, none, none⟩⟩⟩

/-- C4: For every user and module, after any sequence of CompleteLesson
operations from a fresh deployment whose denormalized Module.total_lessons
agrees with the lesson catalog, ModuleProgress.completed_lessons never
exceeds ModuleProgress.total_lessons, and is_completed is true exactly when
the two are equal. -/
theorem C4_module_aggregate_invariant (init : DB) (hinit : InitState init)
    (tr : List Call) :
    ∀ mp ∈ (execTrace init tr).moduleProgress,
      orZero mp.completed_lessons ≤ mp.total_lessons ∧
        (mp.is_completed = true ↔
          orZero mp.completed_lessons = mp.total_lessons) := by
  intro mp hmp
  have hI := inv_trace init (inv_init init hinit) tr
  have hcount := hI.mpCount mp hmp
  obtain ⟨M, hM, htot⟩ := hI.mpTotal mp hmp
  have hflag := hI.mpFlag mp hmp
  have hML : (execTrace init tr).modules.find?
      (fun m => m.id == mp.module_id) = some M := hM
  have hMmem : M ∈ (execTrace init tr).modules := List.mem_of_find?_eq_some hML
  have hMid : (M.id == mp.module_id) = true :=
    List.find?_some (p := fun (m : Module) => m.id == mp.module_id) hML
  have hMid2 : M.id = mp.module_id := by simpa using hMid
  have hcat := hI.catalog M hMmem
  have hb := count_le_total (execTrace init tr) hI mp.user_id mp.module_id
  have hoz : orZero mp.completed_lessons =
      moduleCompletedCount (execTrace init tr) mp.user_id mp.module_id := by
    rw [hcount]
    rfl
  have hbound : orZero mp.completed_lessons ≤ mp.total_lessons := by
    rw [hoz, htot, hcat, hMid2]
    exact hb
  refine ⟨hbound, ?_⟩
  rw [hflag]
  simp only [decide_eq_true_eq]
  omega

/-- Witness for C4: the same one-lesson deployment after one completion. -/
theorem C4_module_aggregate_invariant_witness :
    InitState ⟨[⟨5, 2, 1, "Intro", some 20⟩], [⟨2, 1, 1⟩], [], [], [], [⟨1, 0⟩]⟩ ∧
    (∀ mp ∈ (execTrace
        ⟨[⟨5, 2, 1, "Intro", some 20⟩], [⟨2, 1, 1⟩], [], [], [], [⟨1, 0⟩]⟩
        [⟨⟨42, none, fun _ => false⟩, 1, 2, 5, ⟨none, none, none⟩⟩]).moduleProgress,
      orZero mp.completed_lessons ≤ mp.total_lessons ∧
        (mp.is_completed = true ↔
          orZero mp.completed_lessons = mp.total_lessons)) :=
  ⟨⟨rfl, rfl, rfl, by decide⟩,
    C4_module_aggregate_invariant
      ⟨[⟨5, 2, 1, "Intro", some 20⟩], [⟨2, 1, 1⟩], [], [], [], [⟨1, 0⟩]⟩
      ⟨rfl, rfl, rfl, by decide⟩
      [⟨⟨42, none, fun _ => false⟩, 1, 2, 5, ⟨none, none, none⟩⟩]⟩

end Phase1
namespace Phase1

/-- C2: For every pair whose LessonProgress is already completed (and whose
lesson still resolves under the requested module), a CompleteLesson call
returns already_completed = true with xp_credited = 0 and performs no
mutation: the returned store is exactly the input store, so LessonProgress,
ModuleProgress and User.total_xp are all unchanged. -/
theorem C2_duplicate_call_is_noop (env : Env) (db : DB) (u mid lid : Nat)
    (d : CompletionData) (lesson : Lesson) (row : UserLessonProgress)
    (hL : lessonOf db lid = some lesson) (hm : lesson.module_id = mid)
    (hr : findLP db u lid = some row) (hc : row.is_completed = true) :
    completeLesson env db u mid lid d =
      (db, .success row none 0 true "Lesson already completed") :=
  completeLesson_already env db u mid lid d lesson row hL hm hr hc

/-- Witness for C2: a store holding one completed pair. -/
theorem C2_duplicate_call_is_noop_witness :
    (lessonOf ⟨[⟨5, 2, 1, "Intro", some 20⟩], [⟨2, 1, 1⟩],
        [⟨1, 5, "completed", true, none, 0, 20, some 42⟩], [], [], [⟨1, 20⟩]⟩ 5 =
      some ⟨5, 2, 1, "Intro", some 20⟩) ∧
    ((⟨5, 2, 1, "Intro", some 20⟩ : Lesson).module_id = 2) ∧
    (findLP ⟨[⟨5, 2, 1, "Intro", some 20⟩], [⟨2, 1, 1⟩],
        [⟨1, 5, "completed", true, none, 0, 20, some 42⟩], [], [], [⟨1, 20⟩]⟩ 1 5 =
      some ⟨1, 5, "completed", true, none, 0, 20, some 42⟩) ∧
    ((⟨1, 5, "completed", true, none, 0, 20, some 42⟩ :
        UserLessonProgress).is_completed = true) ∧
    completeLesson ⟨99, none, fun _ => false⟩
        ⟨[⟨5, 2, 1, "Intro", some 20⟩], [⟨2, 1, 1⟩],
          [⟨1, 5, "completed", true, none, 0, 20, some 42⟩], [], [], [⟨1, 20⟩]⟩
        1 2 5 ⟨none, none, none⟩ =
      (⟨[⟨5, 2, 1, "Intro", some 20⟩], [⟨2, 1, 1⟩],
          [⟨1, 5, "completed", true, none, 0, 20, some 42⟩], [], [], [⟨1, 20⟩]⟩,
        .success ⟨1, 5, "completed", true, none, 0, 20, some 42⟩ none 0 true
          "Lesson already completed") :=
  ⟨by decide, by decide, by decide, by decide,
    C2_duplicate_call_is_noop ⟨99, none, fun _ => false⟩
      ⟨[⟨5, 2, 1, "Intro", some 20⟩], [⟨2, 1, 1⟩],
        [⟨1, 5, "completed", true, none, 0, 20, some 42⟩], [], [], [⟨1, 20⟩]⟩
      1 2 5 ⟨none, none, none⟩ ⟨5, 2, 1, "Intro", some 20⟩
      ⟨1, 5, "completed", true, none, 0, 20, some 42⟩
      (by decide) (by decide) (by decide) (by decide)⟩

/-- C9: complete-by-number resolves (module_number, lesson_number) to
internal ids and is then exactly the by-id route on the resolved ids; its
only additional behavior is a NotFound response, with the store unchanged,
when either number fails to resolve. -/
theorem C9_by_number_equivalence :
    (∀ env db u mn ln d (m : Module) (l : Lesson),
      findModuleByNumber db mn = some m → findLessonByNumber db m.id ln = some l →
      completeLessonByNumber env db u mn ln d = completeLesson env db u m.id l.id d) ∧
    (∀ env db u mn ln d, findModuleByNumber db mn = none →
      completeLessonByNumber env db u mn ln d =
        (db, .error ("Module " ++ toString mn ++ " not found") 404
          "LESSON_NOT_FOUND")) ∧
    (∀ env db u mn ln d (m : Module), findModuleByNumber db mn = some m →
      findLessonByNumber db m.id ln = none →
      completeLessonByNumber env db u mn ln d =
        (db, .error ("Lesson " ++ toString ln ++ " in module " ++ toString mn ++
          " not found") 404 "LESSON_NOT_FOUND")) := by
  refine ⟨?_, ?_, ?_⟩
  · intro env db u mn ln d m l hm hl
    unfold completeLessonByNumber completeLesson
    rw [hm]
    simp only [hl]
  · intro env db u mn ln d hm
    unfold completeLessonByNumber
    rw [hm]
  · intro env db u mn ln d m hm hl
    unfold completeLessonByNumber
    rw [hm]
    simp only [hl]

/-- Witness for C9 at a concrete resolvable pair of numbers. -/
theorem C9_by_number_equivalence_witness :
    (findModuleByNumber ⟨[⟨5, 2, 1, "Intro", some 20⟩], [⟨2, 7, 1⟩],
        [], [], [], [⟨1, 0⟩]⟩ 7 = some ⟨2, 7, 1⟩) ∧
    (findLessonByNumber ⟨[⟨5, 2, 1, "Intro", some 20⟩], [⟨2, 7, 1⟩],
        [], [], [], [⟨1, 0⟩]⟩ 2 1 = some ⟨5, 2, 1, "Intro", some 20⟩) ∧
    completeLessonByNumber ⟨42, none, fun _ => false⟩
        ⟨[⟨5, 2, 1, "Intro", some 20⟩], [⟨2, 7, 1⟩], [], [], [], [⟨1, 0⟩]⟩
        1 7 1 ⟨none, none, none⟩ =
      completeLesson ⟨42, none, fun _ => false⟩
        ⟨[⟨5, 2, 1, "Intro", some 20⟩], [⟨2, 7, 1⟩], [], [], [], [⟨1, 0⟩]⟩
        1 2 5 ⟨none, none, none⟩ :=
  ⟨by decide, by decide,
    C9_by_number_equivalence.1 ⟨42, none, fun _ => false⟩
      ⟨[⟨5, 2, 1, "Intro", some 20⟩], [⟨2, 7, 1⟩], [], [], [], [⟨1, 0⟩]⟩
      1 7 1 ⟨none, none, none⟩ ⟨2, 7, 1⟩ ⟨5, 2, 1, "Intro", some 20⟩
      (by decide) (by decide)⟩

end Phase1
namespace Phase1

/-- Counterexample to C6 as stated: with the lesson's module absent from the
catalog but the pair already completed, CompleteLesson returns the
already-completed success envelope instead of failing with NotFound (the
early return at modules.py line 663-665 precedes every module lookup). -/
theorem C6_notfound_counterexample :
    moduleOf ⟨[⟨5, 2, 1, "Intro", some 20⟩], [],
      [⟨1, 5, "completed", true, none, 0, 20, some 42⟩], [], [], [⟨1, 20⟩]⟩ 2 =
        none ∧
    completeLesson ⟨99, none, fun _ => false⟩
        ⟨[⟨5, 2, 1, "Intro", some 20⟩], [],
          [⟨1, 5, "completed", true, none, 0, 20, some 42⟩], [], [], [⟨1, 20⟩]⟩
        1 2 5 ⟨none, none, none⟩ =
      (⟨[⟨5, 2, 1, "Intro", some 20⟩], [],
          [⟨1, 5, "completed", true, none, 0, 20, some 42⟩], [], [], [⟨1, 20⟩]⟩,
        .success ⟨1, 5, "completed", true, none, 0, 20, some 42⟩ none 0 true
          "Lesson already completed") := by
  constructor
  · decide
  · decide

/-- C6 (amended): a CompleteLesson call whose lesson id does not resolve, or
whose lesson is not under the requested module, fails with NotFound and
leaves the store exactly as it was; the same holds when the module row is
absent, provided the pair is not already completed (an already-completed
pair short-circuits into the idempotent success before any module lookup).
In every such case no new LessonProgress, ModuleProgress or XPTransaction
row exists afterward, because the returned store is the input store. -/
theorem C6_notfound_rollback :
    (∀ (env : Env) (db : DB) (u mid lid : Nat) (d : CompletionData),
      lessonOf db lid = none →
      completeLesson env db u mid lid d =
        (db, .error "Lesson not found" 404 "LESSON_NOT_FOUND")) ∧
    (∀ (env : Env) (db : DB) (u mid lid : Nat) (d : CompletionData)
        (lesson : Lesson),
      lessonOf db lid = some lesson → lesson.module_id ≠ mid →
      completeLesson env db u mid lid d =
        (db, .error "Lesson not found" 404 "LESSON_NOT_FOUND")) ∧
    (∀ (env : Env) (db : DB) (u mid lid : Nat) (d : CompletionData)
        (lesson : Lesson),
      lessonOf db lid = some lesson → lesson.module_id = mid →
      moduleOf db mid = none → completedIn db u lid = false →
      completeLesson env db u mid lid d =
        (db, .error "Module not found" 404 "LESSON_NOT_FOUND")) := by
  refine ⟨?_, ?_, ?_⟩
  · intro env db u mid lid d hL
    unfold completeLesson completeLessonInternal
    rw [hL]
  · intro env db u mid lid d lesson hL hm
    unfold completeLesson completeLessonInternal
    rw [hL]
    simp [hm]
  · intro env db u mid lid d lesson hL hm hM hnc
    unfold completeLesson
    cases hr : findLP db u lid with
    | none =>
      rw [internal_fresh env db u mid lid d lesson hL hm hr,
        runBody_noModule env db (addLP db (newLessonProgress u lid)) lesson
          (newLessonProgress u lid) u mid lid d hM]
    | some row =>
      have hrc : row.is_completed = false := by
        unfold completedIn at hnc
        rw [hr] at hnc
        exact hnc
      rw [internal_incomplete env db u mid lid d lesson row hL hm hr hrc,
        runBody_noModule env db db lesson row u mid lid d hM]

/-- Witness for the amended C6: an unknown lesson id against a one-lesson
store. -/
theorem C6_notfound_rollback_witness :
    (lessonOf ⟨[⟨5, 2, 1, "Intro", some 20⟩], [⟨2, 1, 1⟩], [], [], [],
        [⟨1, 0⟩]⟩ 99 = none) ∧
    completeLesson ⟨42, none, fun _ => false⟩
        ⟨[⟨5, 2, 1, "Intro", some 20⟩], [⟨2, 1, 1⟩], [], [], [], [⟨1, 0⟩]⟩
        1 2 99 ⟨none, none, none⟩ =
      (⟨[⟨5, 2, 1, "Intro", some 20⟩], [⟨2, 1, 1⟩], [], [], [], [⟨1, 0⟩]⟩,
        .error "Lesson not found" 404 "LESSON_NOT_FOUND") :=
  ⟨by decide,
    C6_notfound_rollback.1 ⟨42, none, fun _ => false⟩
      ⟨[⟨5, 2, 1, "Intro", some 20⟩], [⟨2, 1, 1⟩], [], [], [], [⟨1, 0⟩]⟩
      1 2 99 ⟨none, none, none⟩ (by decide)⟩

end Phase1
namespace Phase1

/-- On a first completion the route reports exactly the resolved amount and
already_completed = false. -/
theorem respXp_fresh (env : Env) (db : DB) (u mid lid : Nat)
    (d : CompletionData) (lesson : Lesson) (M : Module)
    (hL : lessonOf db lid = some lesson) (hm : lesson.module_id = mid)
    (hf : findLP db u lid = none) (hM : moduleOf db mid = some M)
    (hce : env.commitError = none) :
    respXp (completeLesson env db u mid lid d).2 =
      some (resolveCreditedXp d.xp_earned lesson.xp_reward) ∧
    respAlready (completeLesson env db u mid lid d).2 = some false := by
  cases hmp : findMP db u mid with
  | some mp0 =>
    unfold completeLesson
    rw [internal_fresh env db u mid lid d lesson hL hm hf,
      runBody_fresh_existingMP env db lesson u mid lid d mp0 M hf hmp hM hce]
    by_cases hcr : 0 < resolveCreditedXp d.xp_earned lesson.xp_reward <;>
      simp [hcr, respXp, respAlready]
  | none =>
    unfold completeLesson
    rw [internal_fresh env db u mid lid d lesson hL hm hf,
      runBody_fresh_createMP env db lesson u mid lid d M hf hmp hM hce]
    by_cases hcr : 0 < resolveCreditedXp d.xp_earned lesson.xp_reward <;>
      simp [hcr, respXp, respAlready]

/-- Counterexample to C3 as stated: with no positive request value and a
configured xp_reward of 0 the credited amount on a first completion is 0,
not the claimed default 50, because the default arm of the chain is
reachable only when xp_reward is not a number. -/
theorem C3_xp_resolution_counterexample :
    respXp (completeLesson ⟨42, none, fun _ => false⟩
        ⟨[⟨5, 2, 1, "Intro", some 0⟩], [⟨2, 1, 1⟩], [], [], [], [⟨1, 0⟩]⟩
        1 2 5 ⟨none, none, none⟩).2 = some 0 ∧
    respXp (completeLesson ⟨42, none, fun _ => false⟩
        ⟨[⟨5, 2, 1, "Intro", some 0⟩], [⟨2, 1, 1⟩], [], [], [], [⟨1, 0⟩]⟩
        1 2 5 ⟨none, none, none⟩).2 ≠ some 50 ∧
    respAlready (completeLesson ⟨42, none, fun _ => false⟩
        ⟨[⟨5, 2, 1, "Intro", some 0⟩], [⟨2, 1, 1⟩], [], [], [], [⟨1, 0⟩]⟩
        1 2 5 ⟨none, none, none⟩).2 = some false := by
  refine ⟨by decide, by decide, by decide⟩

/-- C3 (amended): the credited amount on a first completion is resolved as
(1) the request's xp_earned if positive, otherwise (2) the lesson's
xp_reward whenever it is a number -- including 0 or a negative value --
and (3) the fixed default 50 only when xp_reward is not a number. The
examples 30-over-10 and bare-10 hold as claimed; with neither a positive
request value nor a numeric xp_reward the credit is 50, but with
xp_reward = 0 it is 0. The route reports exactly the resolved amount. -/
theorem C3_xp_resolution :
    (∀ (x : Int) (reward : Option Int), 0 < x →
      resolveCreditedXp (some x) reward = x) ∧
    (∀ (req : Option Int) (y : Int), (∀ x, req = some x → x ≤ 0) →
      resolveCreditedXp req (some y) = y) ∧
    (∀ (req : Option Int), (∀ x, req = some x → x ≤ 0) →
      resolveCreditedXp req none = 50) ∧
    (resolveCreditedXp (some 30) (some 10) = 30 ∧
     resolveCreditedXp none (some 10) = 10 ∧
     resolveCreditedXp none (some 0) = 0 ∧
     resolveCreditedXp none none = 50) ∧
    (∀ (env : Env) (db : DB) (u mid lid : Nat) (d : CompletionData)
        (lesson : Lesson) (M : Module),
      lessonOf db lid = some lesson → lesson.module_id = mid →
      findLP db u lid = none → moduleOf db mid = some M →
      env.commitError = none →
      respXp (completeLesson env db u mid lid d).2 =
        some (resolveCreditedXp d.xp_earned lesson.xp_reward)) := by
  refine ⟨?_, ?_, ?_, by decide, ?_⟩
  · intro x reward hx
    unfold resolveCreditedXp
    simp [hx]
  · intro req y hreq
    cases req with
    | none => rfl
    | some x =>
      have hx := hreq x rfl
      unfold resolveCreditedXp
      simp [not_lt.mpr hx, resolveLessonXp]
  · intro req hreq
    cases req with
    | none => rfl
    | some x =>
      have hx := hreq x rfl
      unfold resolveCreditedXp
      simp [not_lt.mpr hx, resolveLessonXp]
  · intro env db u mid lid d lesson M hL hm hf hM hce
    exact (respXp_fresh env db u mid lid d lesson M hL hm hf hM hce).1

/-- Witness for the amended C3: the resolved amount reported for a concrete
first completion with request xp_earned = 30 over xp_reward = 10. -/
theorem C3_xp_resolution_witness :
    (lessonOf ⟨[⟨5, 2, 1, "Intro", some 10⟩], [⟨2, 1, 1⟩], [], [], [],
        [⟨1, 0⟩]⟩ 5 = some ⟨5, 2, 1, "Intro", some 10⟩) ∧
    respXp (completeLesson ⟨42, none, fun _ => false⟩
        ⟨[⟨5, 2, 1, "Intro", some 10⟩], [⟨2, 1, 1⟩], [], [], [], [⟨1, 0⟩]⟩
        1 2 5 ⟨none, none, some 30⟩).2 =
      some (resolveCreditedXp (some 30) (some 10)) :=
  ⟨by decide,
    C3_xp_resolution.2.2.2.2 ⟨42, none, fun _ => false⟩
      ⟨[⟨5, 2, 1, "Intro", some 10⟩], [⟨2, 1, 1⟩], [], [], [], [⟨1, 0⟩]⟩
      1 2 5 ⟨none, none, some 30⟩ ⟨5, 2, 1, "Intro", some 10⟩ ⟨2, 1, 1⟩
      (by decide) (by decide) (by decide) (by decide) (by decide)⟩

end Phase1
namespace Phase1

/-- After a first completion with an existing aggregate row, the stored row
is the increment of the previous one. -/
theorem findMP_after_fresh_existing (env : Env) (db : DB) (u mid lid : Nat)
    (d : CompletionData) (lesson : Lesson) (mp0 : UserModuleProgress)
    (M : Module)
    (hL : lessonOf db lid = some lesson) (hm : lesson.module_id = mid)
    (hf : findLP db u lid = none) (hmp : findMP db u mid = some mp0)
    (hM : moduleOf db mid = some M) (hce : env.commitError = none) :
    findMP ((completeLesson env db u mid lid d).1) u mid =
      some (updatedModuleProgress mp0 (orZero mp0.completed_lessons + 1)
        M.total_lessons env.now) := by
  have hmpL : db.moduleProgress.find?
      (fun r => r.user_id == u && r.module_id == mid) = some mp0 := hmp
  have hkey0 : (mp0.user_id == u && mp0.module_id == mid) = true :=
    List.find?_some (p := fun (r : UserModuleProgress) =>
      r.user_id == u && r.module_id == mid) hmpL
  have hp : ((updatedModuleProgress mp0 (orZero mp0.completed_lessons + 1)
      M.total_lessons env.now).user_id == u &&
      (updatedModuleProgress mp0 (orZero mp0.completed_lessons + 1)
        M.total_lessons env.now).module_id == mid) = true := hkey0
  rw [completeLesson_state_fresh_existingMP env db u mid lid d lesson mp0 M
    hL hm hf hmp hM hce]
  by_cases hcr : 0 < resolveCreditedXp d.xp_earned lesson.xp_reward
  · rw [if_pos hcr]
    show (db.moduleProgress.map _).find? _ = _
    rw [find?_map_replace (fun x => x.user_id == u && x.module_id == mid)
      (updatedModuleProgress mp0 (orZero mp0.completed_lessons + 1)
        M.total_lessons env.now) hp db.moduleProgress, hmpL]
  · rw [if_neg hcr]
    show (db.moduleProgress.map _).find? _ = _
    rw [find?_map_replace (fun x => x.user_id == u && x.module_id == mid)
      (updatedModuleProgress mp0 (orZero mp0.completed_lessons + 1)
        M.total_lessons env.now) hp db.moduleProgress, hmpL]

/-- Counterexample to C5 as stated: on a duplicate (already-completed) call
the stored counter is not recomputed from a full scan -- the call returns
before touching ModuleProgress, so a stale counter of 5 survives although
the scan count is 1. -/
theorem C5_recompute_counterexample :
    moduleCompletedCount ⟨[⟨5, 2, 1, "Intro", some 20⟩], [⟨2, 1, 3⟩],
        [⟨1, 5, "completed", true, none, 0, 20, some 42⟩],
        [⟨1, 2, some 5, 3, false, none, none⟩], [], [⟨1, 20⟩]⟩ 1 2 = 1 ∧
    (completeLesson ⟨99, none, fun _ => false⟩
        ⟨[⟨5, 2, 1, "Intro", some 20⟩], [⟨2, 1, 3⟩],
          [⟨1, 5, "completed", true, none, 0, 20, some 42⟩],
          [⟨1, 2, some 5, 3, false, none, none⟩], [], [⟨1, 20⟩]⟩
        1 2 5 ⟨none, none, none⟩).1 =
      ⟨[⟨5, 2, 1, "Intro", some 20⟩], [⟨2, 1, 3⟩],
        [⟨1, 5, "completed", true, none, 0, 20, some 42⟩],
        [⟨1, 2, some 5, 3, false, none, none⟩], [], [⟨1, 20⟩]⟩ ∧
    findMP (completeLesson ⟨99, none, fun _ => false⟩
        ⟨[⟨5, 2, 1, "Intro", some 20⟩], [⟨2, 1, 3⟩],
          [⟨1, 5, "completed", true, none, 0, 20, some 42⟩],
          [⟨1, 2, some 5, 3, false, none, none⟩], [], [⟨1, 20⟩]⟩
        1 2 5 ⟨none, none, none⟩).1 1 2 =
      some ⟨1, 2, some 5, 3, false, none, none⟩ ∧
    (5 : Nat) ≠ 1 := by
  refine ⟨by decide, by decide, by decide, by decide⟩

/-- C5 (amended): on a new completion the owning module's counter is updated
by incrementing its previous stored value -- not by a full rescan -- while
on a duplicate/already-completed call the operation returns early and
performs no ModuleProgress update at all (the rescan fallback in the code is
unreachable, since every already-completed path has returned earlier). -/
theorem C5_counter_increment :
    (∀ (env : Env) (db : DB) (u mid lid : Nat) (d : CompletionData)
        (lesson : Lesson) (mp0 : UserModuleProgress) (M : Module),
      lessonOf db lid = some lesson → lesson.module_id = mid →
      findLP db u lid = none → findMP db u mid = some mp0 →
      moduleOf db mid = some M → env.commitError = none →
      ∃ mp1, findMP ((completeLesson env db u mid lid d).1) u mid = some mp1 ∧
        mp1.completed_lessons = some (orZero mp0.completed_lessons + 1)) ∧
    (∀ (env : Env) (db : DB) (u mid lid : Nat) (d : CompletionData),
      completedIn db u lid = true →
      (completeLesson env db u mid lid d).1 = db) := by
  constructor
  · intro env db u mid lid d lesson mp0 M hL hm hf hmp hM hce
    exact ⟨updatedModuleProgress mp0 (orZero mp0.completed_lessons + 1)
        M.total_lessons env.now,
      findMP_after_fresh_existing env db u mid lid d lesson mp0 M
        hL hm hf hmp hM hce, rfl⟩
  · intro env db u mid lid d hdone
    exact completeLesson_state_of_completed env db u mid lid d hdone

/-- Witness for the amended C5: a concrete first completion increments a
stored counter of 1 to 2. -/
theorem C5_counter_increment_witness :
    (findMP ⟨[⟨5, 2, 1, "Intro", some 20⟩, ⟨6, 2, 2, "Next", some 20⟩],
        [⟨2, 1, 3⟩], [⟨1, 5, "completed", true, none, 0, 20, some 42⟩],
        [⟨1, 2, some 1, 3, false, none, some 42⟩], [], [⟨1, 20⟩]⟩ 1 2 =
      some ⟨1, 2, some 1, 3, false, none, some 42⟩) ∧
    (∃ mp1, findMP ((completeLesson ⟨43, none, fun _ => false⟩
        ⟨[⟨5, 2, 1, "Intro", some 20⟩, ⟨6, 2, 2, "Next", some 20⟩],
          [⟨2, 1, 3⟩], [⟨1, 5, "completed", true, none, 0, 20, some 42⟩],
          [⟨1, 2, some 1, 3, false, none, some 42⟩], [], [⟨1, 20⟩]⟩
        1 2 6 ⟨none, none, none⟩).1) 1 2 = some mp1 ∧
      mp1.completed_lessons =
        some (orZero (some (1 : Nat)) + 1)) :=
  ⟨by decide,
    C5_counter_increment.1 ⟨43, none, fun _ => false⟩
      ⟨[⟨5, 2, 1, "Intro", some 20⟩, ⟨6, 2, 2, "Next", some 20⟩],
        [⟨2, 1, 3⟩], [⟨1, 5, "completed", true, none, 0, 20, some 42⟩],
        [⟨1, 2, some 1, 3, false, none, some 42⟩], [], [⟨1, 20⟩]⟩
      1 2 6 ⟨none, none, none⟩ ⟨6, 2, 2, "Next", some 20⟩
      ⟨1, 2, some 1, 3, false, none, some 42⟩ ⟨2, 1, 3⟩
      (by decide) (by decide) (by decide) (by decide) (by decide) (by decide)⟩

end Phase1
namespace Phase1

/-- Counterexample to C10 as stated: with a negative configured xp_reward
(-5) and no positive request value, the first completion resolves -5, still
completes, creates no transaction and moves no XP -- but the route reports
xp_credited = -5, not the claimed 0. -/
theorem C10_report_counterexample :
    respXp (completeLesson ⟨42, none, fun _ => false⟩
        ⟨[⟨5, 2, 1, "Intro", some (-5)⟩], [⟨2, 1, 1⟩], [], [], [], [⟨1, 0⟩]⟩
        1 2 5 ⟨none, none, none⟩).2 = some (-5) ∧
    respXp (completeLesson ⟨42, none, fun _ => false⟩
        ⟨[⟨5, 2, 1, "Intro", some (-5)⟩], [⟨2, 1, 1⟩], [], [], [], [⟨1, 0⟩]⟩
        1 2 5 ⟨none, none, none⟩).2 ≠ some 0 ∧
    respAlready (completeLesson ⟨42, none, fun _ => false⟩
        ⟨[⟨5, 2, 1, "Intro", some (-5)⟩], [⟨2, 1, 1⟩], [], [], [], [⟨1, 0⟩]⟩
        1 2 5 ⟨none, none, none⟩).2 = some false ∧
    ((completeLesson ⟨42, none, fun _ => false⟩
        ⟨[⟨5, 2, 1, "Intro", some (-5)⟩], [⟨2, 1, 1⟩], [], [], [], [⟨1, 0⟩]⟩
        1 2 5 ⟨none, none, none⟩).1).xpTransactions = [] ∧
    userTotalXp ((completeLesson ⟨42, none, fun _ => false⟩
        ⟨[⟨5, 2, 1, "Intro", some (-5)⟩], [⟨2, 1, 1⟩], [], [], [], [⟨1, 0⟩]⟩
        1 2 5 ⟨none, none, none⟩).1) 1 = some 0 := by
  refine ⟨by decide, by decide, by decide, by decide, by decide⟩

/-- C10 (amended): if the resolved XP amount on a first completion is not
positive, CompleteLesson still marks the lesson completed and returns
already_completed = false, creates no XPTransaction row and leaves every
User.total_xp unchanged; the reported xp_credited equals the resolved
non-positive amount (so it is 0 exactly when the resolution yields 0, as in
the xp_reward = 0 case). -/
theorem C10_nonpositive_credit (env : Env) (db : DB) (u mid lid : Nat)
    (d : CompletionData) (lesson : Lesson) (M : Module)
    (hL : lessonOf db lid = some lesson) (hm : lesson.module_id = mid)
    (hf : findLP db u lid = none) (hM : moduleOf db mid = some M)
    (hce : env.commitError = none)
    (hnp : resolveCreditedXp d.xp_earned lesson.xp_reward ≤ 0) :
    respAlready (completeLesson env db u mid lid d).2 = some false ∧
    respXp (completeLesson env db u mid lid d).2 =
      some (resolveCreditedXp d.xp_earned lesson.xp_reward) ∧
    ((completeLesson env db u mid lid d).1).xpTransactions =
      db.xpTransactions ∧
    ((completeLesson env db u mid lid d).1).users = db.users ∧
    completedIn ((completeLesson env db u mid lid d).1) u lid = true := by
  have hresp := respXp_fresh env db u mid lid d lesson M hL hm hf hM hce
  have hcr : ¬ 0 < resolveCreditedXp d.xp_earned lesson.xp_reward :=
    not_lt.mpr hnp
  refine ⟨hresp.2, hresp.1, ?_⟩
  cases hmp : findMP db u mid with
  | some mp0 =>
    rw [completeLesson_state_fresh_existingMP env db u mid lid d lesson mp0 M
      hL hm hf hmp hM hce, if_neg hcr]
    refine ⟨rfl, rfl, ?_⟩
    rw [completedIn_shape db _
      (markCompleted (newLessonProgress u lid) d env.now) u lid u lid rfl
      (by simp [markCompleted, newLessonProgress])
      (by simp [markCompleted, newLessonProgress])
      (by simp [markCompleted, newLessonProgress]) hf]
    simp
  | none =>
    rw [completeLesson_state_fresh_createMP env db u mid lid d lesson M
      hL hm hf hmp hM hce, if_neg hcr]
    refine ⟨rfl, rfl, ?_⟩
    rw [completedIn_shape db _
      (markCompleted (newLessonProgress u lid) d env.now) u lid u lid rfl
      (by simp [markCompleted, newLessonProgress])
      (by simp [markCompleted, newLessonProgress])
      (by simp [markCompleted, newLessonProgress]) hf]
    simp

/-- Witness for the amended C10 at a concrete lesson with xp_reward = 0. -/
theorem C10_nonpositive_credit_witness :
    (resolveCreditedXp none (some 0) ≤ 0) ∧
    (respAlready (completeLesson ⟨42, none, fun _ => false⟩
        ⟨[⟨5, 2, 1, "Intro", some 0⟩], [⟨2, 1, 1⟩], [], [], [], [⟨1, 0⟩]⟩
        1 2 5 ⟨none, none, none⟩).2 = some false ∧
     respXp (completeLesson ⟨42, none, fun _ => false⟩
        ⟨[⟨5, 2, 1, "Intro", some 0⟩], [⟨2, 1, 1⟩], [], [], [], [⟨1, 0⟩]⟩
        1 2 5 ⟨none, none, none⟩).2 = some (resolveCreditedXp none (some 0)) ∧
     ((completeLesson ⟨42, none, fun _ => false⟩
        ⟨[⟨5, 2, 1, "Intro", some 0⟩], [⟨2, 1, 1⟩], [], [], [], [⟨1, 0⟩]⟩
        1 2 5 ⟨none, none, none⟩).1).xpTransactions = [] ∧
     ((completeLesson ⟨42, none, fun _ => false⟩
        ⟨[⟨5, 2, 1, "Intro", some 0⟩], [⟨2, 1, 1⟩], [], [], [], [⟨1, 0⟩]⟩
        1 2 5 ⟨none, none, none⟩).1).users = [⟨1, 0⟩] ∧
     completedIn ((completeLesson ⟨42, none, fun _ => false⟩
        ⟨[⟨5, 2, 1, "Intro", some 0⟩], [⟨2, 1, 1⟩], [], [], [], [⟨1, 0⟩]⟩
        1 2 5 ⟨none, none, none⟩).1) 1 5 = true) :=
  ⟨by decide,
    C10_nonpositive_credit ⟨42, none, fun _ => false⟩
      ⟨[⟨5, 2, 1, "Intro", some 0⟩], [⟨2, 1, 1⟩], [], [], [], [⟨1, 0⟩]⟩
      1 2 5 ⟨none, none, none⟩ ⟨5, 2, 1, "Intro", some 0⟩ ⟨2, 1, 1⟩
      (by decide) (by decide) (by decide) (by decide) (by decide) (by decide)⟩

end Phase1
namespace Phase1

/-- Definitional evaluation of the commit handler under an IntegrityError. -/
theorem commitStage_err_eval (env : Env) (db0 db : DB) (u lid : Nat)
    (res : CompletionResult) (msg : String) (h : env.commitError = some msg) :
    commitStage env db0 db u lid res =
      (if isUniqueViolationMsg msg then
        (match findLP db0 u lid with
         | some p =>
           if p.is_completed then .ok (db0, ⟨p, none, 0, true⟩)
           else .ok (db0, ⟨p, none, 0, false⟩)
         | none => .error (.integrityError msg))
      else .error (.integrityError msg)) := by
  unfold commitStage
  rw [h]

/-- Evaluation of the completion body when the commit raises: the module
stage succeeds, and the outcome is decided entirely by the message
classification and a re-read of the pre-transaction row. -/
theorem runBody_commitError_eval (env : Env) (db0 dbD : DB) (lesson : Lesson)
    (row : UserLessonProgress) (u mid lid : Nat) (d : CompletionData)
    (M : Module) (msg : String)
    (hM : moduleOf dbD mid = some M) (herr : env.commitError = some msg) :
    runBody env db0 dbD lesson row u mid lid d =
      (if isUniqueViolationMsg msg then
        (match findLP db0 u lid with
         | some p =>
           if p.is_completed then .ok (db0, ⟨p, none, 0, true⟩)
           else .ok (db0, ⟨p, none, 0, false⟩)
         | none => .error (.integrityError msg))
      else .error (.integrityError msg)) := by
  unfold runBody
  cases hmp : findMP dbD u mid with
  | some mp0 =>
    simp only [updateModuleProgressStage_existing env
      (updateLP dbD u lid (markCompleted row d env.now)) u mid mp0 M hmp hM]
    rw [commitStage_err_eval env db0 _ u lid _ msg herr]
  | none =>
    simp only [updateModuleProgressStage_create env
      (updateLP dbD u lid (markCompleted row d env.now)) u mid M hmp hM]
    rw [commitStage_err_eval env db0 _ u lid _ msg herr]

/-- C7: When the final commit of a completion raises an integrity error
whose message does not match the unique/duplicate-key patterns, the error is
re-raised unmodified (surfacing as the generic 500 response) and is never
turned into an already-completed result; only unique-key violations are
resolved by re-reading the pair's row from the pre-transaction state. -/
theorem C7_integrityerror_reraise (env : Env) (db : DB) (u mid lid : Nat)
    (d : CompletionData) (lesson : Lesson) (M : Module) (msg : String)
    (hL : lessonOf db lid = some lesson) (hm : lesson.module_id = mid)
    (hM : moduleOf db mid = some M)
    (hrow : findLP db u lid = none ∨
      ∃ r, findLP db u lid = some r ∧ r.is_completed = false)
    (herr : env.commitError = some msg) :
    (isUniqueViolationMsg msg = false →
      completeLessonInternal env db u mid lid d =
        .error (.integrityError msg) ∧
      completeLesson env db u mid lid d =
        (db, .error "Failed to complete lesson" 500
          "LESSON_COMPLETION_ERROR")) ∧
    (isUniqueViolationMsg msg = true →
      completeLessonInternal env db u mid lid d =
        (match findLP db u lid with
         | some p => .ok (db, ⟨p, none, 0, p.is_completed⟩)
         | none => .error (.integrityError msg))) := by
  have hev : completeLessonInternal env db u mid lid d =
      (if isUniqueViolationMsg msg then
        (match findLP db u lid with
         | some p =>
           if p.is_completed then .ok (db, ⟨p, none, 0, true⟩)
           else .ok (db, ⟨p, none, 0, false⟩)
         | none => .error (.integrityError msg))
      else .error (.integrityError msg)) := by
    rcases hrow with hf | ⟨r, hr, hrc⟩
    · rw [internal_fresh env db u mid lid d lesson hL hm hf]
      exact runBody_commitError_eval env db (addLP db (newLessonProgress u lid))
        lesson (newLessonProgress u lid) u mid lid d M msg hM herr
    · rw [internal_incomplete env db u mid lid d lesson r hL hm hr hrc]
      exact runBody_commitError_eval env db db lesson r u mid lid d M msg
        hM herr
  constructor
  · intro hu
    have hint : completeLessonInternal env db u mid lid d =
        .error (.integrityError msg) := by
      rw [hev]
      simp [hu]
    refine ⟨hint, ?_⟩
    unfold completeLesson
    rw [hint]
  · intro hu
    rw [hev]
    cases hfl : findLP db u lid with
    | none => simp [hu, hfl]
    | some p => by_cases hp : p.is_completed = true <;> simp [hu, hfl, hp]

/-- Witness for C7: a foreign-key style message is re-raised and surfaces as
the 500 response on a concrete fresh completion. -/
theorem C7_integrityerror_reraise_witness :
    (isUniqueViolationMsg "FOREIGN KEY constraint failed" = false) ∧
    (completeLessonInternal ⟨42, some "FOREIGN KEY constraint failed",
        fun _ => false⟩
        ⟨[⟨5, 2, 1, "Intro", some 20⟩], [⟨2, 1, 1⟩], [], [], [], [⟨1, 0⟩]⟩
        1 2 5 ⟨none, none, none⟩ =
      .error (.integrityError "FOREIGN KEY constraint failed") ∧
     completeLesson ⟨42, some "FOREIGN KEY constraint failed", fun _ => false⟩
        ⟨[⟨5, 2, 1, "Intro", some 20⟩], [⟨2, 1, 1⟩], [], [], [], [⟨1, 0⟩]⟩
        1 2 5 ⟨none, none, none⟩ =
      (⟨[⟨5, 2, 1, "Intro", some 20⟩], [⟨2, 1, 1⟩], [], [], [], [⟨1, 0⟩]⟩,
        .error "Failed to complete lesson" 500 "LESSON_COMPLETION_ERROR")) :=
  ⟨by decide,
    (C7_integrityerror_reraise
      ⟨42, some "FOREIGN KEY constraint failed", fun _ => false⟩
      ⟨[⟨5, 2, 1, "Intro", some 20⟩], [⟨2, 1, 1⟩], [], [], [], [⟨1, 0⟩]⟩
      1 2 5 ⟨none, none, none⟩ ⟨5, 2, 1, "Intro", some 20⟩ ⟨2, 1, 1⟩
      "FOREIGN KEY constraint failed"
      (by decide) (by decide) (by decide) (.inl (by decide))
      (by decide)).1 (by decide)⟩

/-- The aggregate stage reads only the clock from the environment. -/
theorem updateModuleProgressStage_env (env1 env2 : Env)
    (hn : env1.now = env2.now) (db : DB) (u mid : Nat) (a : Bool) :
    updateModuleProgressStage env1 db u mid a =
      updateModuleProgressStage env2 db u mid a := by
  unfold updateModuleProgressStage
  rw [hn]

/-- The commit stage is insensitive to the hook failure pattern, because the
hooks of this tree are no-ops. -/
theorem commitStage_env (env1 env2 : Env)
    (hc : env1.commitError = env2.commitError)
    (db0 db : DB) (u lid : Nat) (res : CompletionResult) :
    commitStage env1 db0 db u lid res = commitStage env2 db0 db u lid res := by
  unfold commitStage
  rw [hc]
  cases h2 : env2.commitError with
  | none =>
    simp only []
    rw [runPostCommitHooks_id_fst env1.hookFails,
      runPostCommitHooks_id_fst env2.hookFails]
  | some msg => rfl

/-- The completion body depends on the environment only through the clock
and the commit outcome. -/
theorem runBody_env (env1 env2 : Env) (hn : env1.now = env2.now)
    (hc : env1.commitError = env2.commitError)
    (db0 db : DB) (lesson : Lesson) (row : UserLessonProgress)
    (u mid lid : Nat) (d : CompletionData) :
    runBody env1 db0 db lesson row u mid lid d =
      runBody env2 db0 db lesson row u mid lid d := by
  unfold runBody
  simp only [hn]
  rw [updateModuleProgressStage_env env1 env2 hn]
  cases hs : updateModuleProgressStage env2
      (updateLP db u lid (markCompleted row d env2.now)) u mid false with
  | error e => simp only [hs]
  | ok pr =>
    obtain ⟨db2, mp1⟩ := pr
    simp only [hs]
    exact commitStage_env env1 env2 hc db0 _ u lid _

/-- The whole internal completion depends on the environment only through
the clock and the commit outcome. -/
theorem completeLessonInternal_env (env1 env2 : Env)
    (hn : env1.now = env2.now) (hc : env1.commitError = env2.commitError)
    (db : DB) (u mid lid : Nat) (d : CompletionData) :
    completeLessonInternal env1 db u mid lid d =
      completeLessonInternal env2 db u mid lid d := by
  unfold completeLessonInternal
  cases hL : lessonOf db lid with
  | none => rfl
  | some lesson =>
    by_cases hm : lesson.module_id = mid
    · cases hr : findLP db u lid with
      | some row =>
        by_cases hrc : row.is_completed = true
        · simp [hm, hrc]
        · simp [hm, hrc, runBody_env env1 env2 hn hc]
      | none => simp [hm, runBody_env env1 env2 hn hc]
    · simp [hm]

/-- C8: post-commit hooks (leaderboard and achievement recalculation, no-op
fallbacks in this tree) are attempted at most 3 times, with exponential
backoff sleeps of 100·2^i ms between failed attempts; when every attempt
fails, the state and attempts are (unchanged, 3, [100, 200]); and the hook
failure pattern never changes the result tuple or the committed state of a
completion. -/
theorem C8_hook_retries_bounded_and_harmless :
    (∀ (env : Env) (f g : Nat → Bool) (db : DB) (u mid lid : Nat)
        (d : CompletionData),
      completeLessonInternal { env with hookFails := f } db u mid lid d =
        completeLessonInternal { env with hookFails := g } db u mid lid d) ∧
    (∀ (f : Nat → Bool) (H : Type) (hook : H → H) (h : H),
      (runPostCommitHooks f hook h).2.1 ≤ 3 ∧
      (runPostCommitHooks f hook h).2.2 =
        (List.range ((runPostCommitHooks f hook h).2.1 - 1)).map
          (fun i => 100 * 2 ^ i)) ∧
    (∀ (f : Nat → Bool) (H : Type) (hook : H → H) (h : H),
      (∀ i, i < 3 → f i = true) →
      runPostCommitHooks f hook h = (h, 3, [100, 200])) := by
  refine ⟨?_, ?_, ?_⟩
  · intro env f g db u mid lid d
    exact completeLessonInternal_env { env with hookFails := f }
      { env with hookFails := g } rfl rfl db u mid lid d
  · intro f H hook h
    exact runPostCommitHooks_attempts f hook h
  · intro f H hook h hf
    exact runPostCommitHooks_all_fail f hook h hf

/-- Witness for C8 at a concrete call and concrete failure patterns. -/
theorem C8_hook_retries_bounded_and_harmless_witness :
    (completeLessonInternal ⟨42, none, fun _ => true⟩
        ⟨[⟨5, 2, 1, "Intro", some 20⟩], [⟨2, 1, 1⟩], [], [], [], [⟨1, 0⟩]⟩
        1 2 5 ⟨none, none, none⟩ =
      completeLessonInternal ⟨42, none, fun _ => false⟩
        ⟨[⟨5, 2, 1, "Intro", some 20⟩], [⟨2, 1, 1⟩], [], [], [], [⟨1, 0⟩]⟩
        1 2 5 ⟨none, none, none⟩) ∧
    ((runPostCommitHooks (fun i => i == 0) Nat.succ (0 : Nat)).2.1 ≤ 3 ∧
     (runPostCommitHooks (fun i => i == 0) Nat.succ (0 : Nat)).2.2 =
       (List.range ((runPostCommitHooks (fun i => i == 0) Nat.succ
         (0 : Nat)).2.1 - 1)).map (fun i => 100 * 2 ^ i)) ∧
    ((∀ i, i < 3 → (fun (_ : Nat) => true) i = true) ∧
     runPostCommitHooks (fun _ => true) Nat.succ (0 : Nat) =
       (0, 3, [100, 200])) :=
  ⟨C8_hook_retries_bounded_and_harmless.1 ⟨42, none, fun _ => false⟩
      (fun _ => true) (fun _ => false)
      ⟨[⟨5, 2, 1, "Intro", some 20⟩], [⟨2, 1, 1⟩], [], [], [], [⟨1, 0⟩]⟩
      1 2 5 ⟨none, none, none⟩,
    C8_hook_retries_bounded_and_harmless.2.1 (fun i => i == 0) Nat Nat.succ 0,
    fun i _ => rfl,
    C8_hook_retries_bounded_and_harmless.2.2 (fun _ => true) Nat Nat.succ 0
      (fun i _ => rfl)⟩

end Phase1
